import Mathlib

/-!
Verification of the `AsyncActionServer` goal state machine of the
`ros2-client` Action subsystem (`src/action/mod.rs`, `src/action/goal.rs`).

The server state (`goals` registry, `result_requests` buffer), the goal
status enumeration, the wire messages and every state-mutating operation of
`AsyncActionServer` are embedded as executable Lean functions.  DDS writes
are modelled by an explicit success flag (`writeOk`) and by a list of
emitted `Event`s, so that ordering of status publications relative to reply
messages is visible in the model.  The `BTreeMap` registry is modelled as an
association list sorted strictly by key.
-/

namespace Ros2Client

/-- Modelled from the spec: `GoalId` is a 128-bit UUID (the
`interfaces::unique_identifier_msgs` module is not among the sources).
Only equality, ordering (as a `BTreeMap` key) and the all-zero wildcard
matter here, so it is modelled as a natural number. -/
abbrev GoalId := Nat

/-- Modelled from the spec: the all-zero wildcard `GoalId::ZERO`. -/
def GoalId.ZERO : GoalId := 0

/-- Modelled from the spec: `builtin_interfaces::Time`, two 32-bit fields
(seconds, nanoseconds); the `interfaces` module is not among the sources.
Bounds are irrelevant to the claims, so the fields are `Int` and `Nat`. -/
structure Time where
  sec : Int
  nanosec : Nat
deriving DecidableEq, Repr

/-- Modelled from the spec: the all-zero wildcard `Timestamp::ZERO`. -/
def Time.ZERO : Time := { sec := 0, nanosec := 0 }

/-- Modelled from the spec: the derived lexicographic order on
(seconds, nanoseconds) used by `accepted_time < stamp` comparisons. -/
def Time.lt (a b : Time) : Bool :=
  a.sec < b.sec || (a.sec = b.sec && a.nanosec < b.nanosec)

/-- Modelled from the spec: `RmwRequestId` is an opaque correlation token
(the `service::request_id` module is not among the sources); modelled as a
natural number, since the Action layer only copies and compares it. -/
abbrev RmwRequestId := Nat

/-- `GoalStatusEnum` from `src/action/goal.rs`. -/
inductive GoalStatusEnum where
  | Unknown
  | Accepted
  | Executing
  | Canceling
  | Succeeded
  | Canceled
  | Aborted
deriving DecidableEq, Repr

/-- `GoalInfo` from `src/action/goal.rs`: goal id plus acceptance stamp. -/
structure GoalInfo where
  goal_id : GoalId
  stamp : Time
deriving DecidableEq, Repr

/-- `GoalStatus` from `src/action/goal.rs`. -/
structure GoalStatus where
  goal_info : GoalInfo
  status : GoalStatusEnum
deriving DecidableEq, Repr

/-- `GoalStatusArray` from `src/action/goal.rs`. -/
structure GoalStatusArray where
  status_list : List GoalStatus
deriving DecidableEq, Repr

/-- `CancelGoalRequest` from `src/action/goal.rs`. -/
structure CancelGoalRequest where
  goal_info : GoalInfo
deriving DecidableEq, Repr

/-- `CancelGoalResponseEnum` from `src/action/goal.rs`. -/
inductive CancelGoalResponseEnum where
  | None
  | Rejected
  | UnknownGoal
  | GoalTerminated
deriving DecidableEq, Repr

/-- `CancelGoalResponse` from `src/action/goal.rs`. -/
structure CancelGoalResponse where
  return_code : CancelGoalResponseEnum
  goals_canceling : List GoalInfo
deriving DecidableEq, Repr

/-- `SendGoalRequest<Goal>` from `src/action/mod.rs`. -/
structure SendGoalRequest (Goal : Type) where
  goal_id : GoalId
  goal : Goal
deriving DecidableEq, Repr

/-- `SendGoalResponse` from `src/action/mod.rs`. -/
structure SendGoalResponse where
  accepted : Bool
  stamp : Time
deriving DecidableEq, Repr

/-- `GetResultRequest` from `src/action/mod.rs`. -/
structure GetResultRequest where
  goal_id : GoalId
deriving DecidableEq, Repr

/-- `GetResultResponse<Res>` from `src/action/mod.rs`. -/
structure GetResultResponse (Res : Type) where
  status : GoalStatusEnum
  result : Res
deriving DecidableEq, Repr

/-- `FeedbackMessage<Feedback>` from `src/action/mod.rs`. -/
structure FeedbackMessage (Feedback : Type) where
  goal_id : GoalId
  feedback : Feedback
deriving DecidableEq, Repr

/-- `GoalEndStatus` from `src/action/mod.rs`: terminal outcomes only. -/
inductive GoalEndStatus where
  | Succeeded
  | Aborted
  | Canceled
deriving DecidableEq, Repr

/-- The `match result_status` translation at the top of
`send_result_response` in `src/action/mod.rs`. -/
def GoalEndStatus.toStatusEnum : GoalEndStatus → GoalStatusEnum
  | GoalEndStatus.Succeeded => GoalStatusEnum.Succeeded
  | GoalEndStatus.Aborted => GoalStatusEnum.Aborted
  | GoalEndStatus.Canceled => GoalStatusEnum.Canceled

/-- `GoalError` from `src/action/mod.rs` (the error payload of DDS errors
is dropped; only the error kind matters to the claims). -/
inductive GoalError where
  | NoSuchGoal
  | WrongGoalState
  | DDSReadError
  | DDSWriteError
deriving DecidableEq, Repr

/-- `InnerGoalHandle<Goal>` from `src/action/mod.rs` (the `PhantomData`
field is the type parameter itself). -/
structure InnerGoalHandle (Goal : Type) where
  goal_id : GoalId
deriving DecidableEq, Repr

/-- `NewGoalHandle<Goal>` from `src/action/mod.rs`. -/
structure NewGoalHandle (Goal : Type) where
  inner : InnerGoalHandle Goal
  req_id : RmwRequestId
deriving DecidableEq, Repr

/-- `AcceptedGoalHandle<Goal>` from `src/action/mod.rs`. -/
structure AcceptedGoalHandle (Goal : Type) where
  inner : InnerGoalHandle Goal
deriving DecidableEq, Repr

/-- `ExecutingGoalHandle<Goal>` from `src/action/mod.rs`. -/
structure ExecutingGoalHandle (Goal : Type) where
  inner : InnerGoalHandle Goal
deriving DecidableEq, Repr

/-- `CancelHandle` from `src/action/mod.rs`. -/
structure CancelHandle where
  req_id : RmwRequestId
  goals : List GoalId
deriving DecidableEq, Repr

/-- `AsyncGoal<A>` from `src/action/mod.rs`: one registry record. -/
structure AsyncGoal (G : Type) where
  status : GoalStatusEnum
  accepted_time : Option Time
  goal : G
deriving DecidableEq, Repr

/-- The mutable state of `AsyncActionServer<A>` from `src/action/mod.rs`:
the `goals` registry and the `result_requests` buffer.  Both `BTreeMap`s
are modelled as association lists sorted strictly ascending by key; the
DDS endpoint bundle (`actionserver`) is external and modelled by the
emitted `Event` lists of each operation. -/
structure AsyncActionServer (G R : Type) where
  goals : List (GoalId × AsyncGoal G)
  result_requests : List (GoalId × RmwRequestId)
deriving DecidableEq, Repr

/-- A DDS write attempted by a server operation, in program order. -/
inductive Event (R F : Type) where
  | statusArray (arr : GoalStatusArray)
  | goalResponse (req_id : RmwRequestId) (resp : SendGoalResponse)
  | resultResponse (req_id : RmwRequestId) (resp : GetResultResponse R)
  | feedbackMsg (msg : FeedbackMessage F)
  | cancelResponse (req_id : RmwRequestId) (resp : CancelGoalResponse)
deriving DecidableEq, Repr

/-- `BTreeMap::get` on the sorted-association-list model. -/
def btGet {β : Type} : List (GoalId × β) → GoalId → Option β
  | [], _ => none
  | (k, v) :: rest, g => if k = g then some v else btGet rest g

/-- `Entry::and_modify` / `Entry::or_insert` mutation of an existing key:
apply `f` to the value at `g`, leave everything else unchanged. -/
def btModify {β : Type} (g : GoalId) (f : β → β) :
    List (GoalId × β) → List (GoalId × β)
  | [] => []
  | (k, v) :: rest =>
    if k = g then (k, f v) :: btModify g f rest else (k, v) :: btModify g f rest

/-- `Entry::or_insert` at a vacant key: sorted insertion (only ever used
when `g` is not already a key). -/
def btInsertNew {β : Type} (g : GoalId) (v : β) :
    List (GoalId × β) → List (GoalId × β)
  | [] => [(g, v)]
  | (k, w) :: rest =>
    if g < k then (g, v) :: (k, w) :: rest else (k, w) :: btInsertNew g v rest

/-- `BTreeMap::insert`: sorted insertion replacing an existing key. -/
def btInsert {β : Type} (g : GoalId) (v : β) :
    List (GoalId × β) → List (GoalId × β)
  | [] => [(g, v)]
  | (k, w) :: rest =>
    if g < k then (g, v) :: (k, w) :: rest
    else if g = k then (g, v) :: rest
    else (k, w) :: btInsert g v rest

/-- The keys of an association list, in list order. -/
def btKeys {β : Type} (l : List (GoalId × β)) : List GoalId :=
  l.map Prod.fst

/-- The `BTreeMap` representation invariant: keys strictly ascending. -/
def btSorted {β : Type} (l : List (GoalId × β)) : Prop :=
  (btKeys l).Pairwise (fun a b => a < b)

/-- The body of the private `publish_statuses`: the `GoalStatusArray` built
by iterating the `goals` registry, one `GoalStatus` per record, with
`stamp = accepted_time.unwrap_or(Time::ZERO)`.  The send of the array is
the `Event.statusArray` emitted by each operation (its DDS failure is
swallowed by `unwrap_or_else` in the source, so it never aborts or rolls
back a transition). -/
def publish_statuses {G : Type} (goals : List (GoalId × AsyncGoal G)) :
    GoalStatusArray :=
  { status_list := goals.map (fun kv =>
      { goal_info := { goal_id := kv.1, stamp := kv.2.accepted_time.getD Time.ZERO }
        status := kv.2.status }) }

/-- `AsyncActionServer::receive_new_goal`: scan the incoming goal-request
stream; a request whose `goal_id` is already a registry key is discarded
and the loop continues; the first fresh one is inserted with status
`Unknown` and no `accepted_time`, and its handle is returned together with
the unconsumed remainder of the stream.  `none` models the loop suspending
forever because every received request was a duplicate. -/
def receive_new_goal {G R : Type} (s : AsyncActionServer G R) :
    List (RmwRequestId × SendGoalRequest G) →
    Option (NewGoalHandle G × AsyncActionServer G R ×
      List (RmwRequestId × SendGoalRequest G))
  | [] => none
  | (req_id, goal_request) :: rest =>
    if (btGet s.goals goal_request.goal_id).isSome then
      receive_new_goal s rest
    else
      let record : AsyncGoal G :=
        { status := GoalStatusEnum.Unknown
          accepted_time := none
          goal := goal_request.goal }
      some
        ( { inner := { goal_id := goal_request.goal_id }, req_id := req_id }
        , { s with goals := btInsertNew goal_request.goal_id record s.goals }
        , rest )

/-- The registry insertion performed by `receive_new_goal` for a fresh
goal id: a record with status `Unknown` and no acceptance time. -/
def insertNewGoal {G R : Type} (s : AsyncActionServer G R) (goal_id : GoalId)
    (goal : G) : AsyncActionServer G R :=
  { s with goals :=
      btInsertNew goal_id (AsyncGoal.mk GoalStatusEnum.Unknown none goal) s.goals }

/-- Repeated `receive_new_goal` calls consuming a whole request stream:
returns every handle the server ever hands out for that stream, plus the
final server state. -/
def receiveAllGoals {G R : Type} (s : AsyncActionServer G R) :
    List (RmwRequestId × SendGoalRequest G) →
    List (NewGoalHandle G) × AsyncActionServer G R
  | [] => ([], s)
  | (req_id, goal_request) :: rest =>
    if (btGet s.goals goal_request.goal_id).isSome then
      receiveAllGoals s rest
    else
      ( { inner := { goal_id := goal_request.goal_id }, req_id := req_id }
          :: (receiveAllGoals (insertNewGoal s goal_request.goal_id
              goal_request.goal) rest).1
      , (receiveAllGoals (insertNewGoal s goal_request.goal_id
          goal_request.goal) rest).2 )

/-- `AsyncActionServer::accept_goal`: requires registry status `Unknown`;
sets status `Accepted` and `accepted_time = now`, publishes the status
array, then sends `SendGoalResponse{accepted: true, stamp: now}` on the
handle's saved request id (`writeOk` models that DDS write's outcome). -/
def accept_goal {G R F : Type} (s : AsyncActionServer G R)
    (handle : NewGoalHandle G) (now : Time) (writeOk : Bool) :
    Except GoalError (AcceptedGoalHandle G) ×
      AsyncActionServer G R × List (Event R F) :=
  match btGet s.goals handle.inner.goal_id with
  | none => (Except.error GoalError.NoSuchGoal, s, [])
  | some ag =>
    if ag.status = GoalStatusEnum.Unknown then
      let goals2 := btModify handle.inner.goal_id
        (fun g0 =>
          { g0 with
            status := GoalStatusEnum.Accepted
            accepted_time := some now }) s.goals
      let s2 : AsyncActionServer G R := { s with goals := goals2 }
      if writeOk then
        ( Except.ok { inner := handle.inner }
        , s2
        , [ Event.statusArray (publish_statuses goals2)
          , Event.goalResponse handle.req_id { accepted := true, stamp := now } ] )
      else
        ( Except.error GoalError.DDSWriteError
        , s2
        , [Event.statusArray (publish_statuses goals2)] )
    else (Except.error GoalError.WrongGoalState, s, [])

/-- `AsyncActionServer::reject_goal`: requires status `Unknown`; sends
`SendGoalResponse{accepted: false, stamp: now}`; the record is neither
removed nor modified, and no status array is published. -/
def reject_goal {G R F : Type} (s : AsyncActionServer G R)
    (handle : NewGoalHandle G) (now : Time) (writeOk : Bool) :
    Except GoalError Unit × AsyncActionServer G R × List (Event R F) :=
  match btGet s.goals handle.inner.goal_id with
  | none => (Except.error GoalError.NoSuchGoal, s, [])
  | some ag =>
    if ag.status = GoalStatusEnum.Unknown then
      if writeOk then
        ( Except.ok ()
        , s
        , [Event.goalResponse handle.req_id { accepted := false, stamp := now }] )
      else (Except.error GoalError.DDSWriteError, s, [])
    else (Except.error GoalError.WrongGoalState, s, [])

/-- `AsyncActionServer::start_executing_goal`: requires status `Accepted`;
sets status `Executing` and publishes the status array. -/
def start_executing_goal {G R F : Type} (s : AsyncActionServer G R)
    (handle : AcceptedGoalHandle G) :
    Except GoalError (ExecutingGoalHandle G) ×
      AsyncActionServer G R × List (Event R F) :=
  match btGet s.goals handle.inner.goal_id with
  | none => (Except.error GoalError.NoSuchGoal, s, [])
  | some ag =>
    if ag.status = GoalStatusEnum.Accepted then
      let goals2 := btModify handle.inner.goal_id
        (fun g0 => { g0 with status := GoalStatusEnum.Executing }) s.goals
      ( Except.ok { inner := handle.inner }
      , { s with goals := goals2 }
      , [Event.statusArray (publish_statuses goals2)] )
    else (Except.error GoalError.WrongGoalState, s, [])

/-- `AsyncActionServer::publish_feedback`: requires status `Executing`;
publishes a `FeedbackMessage` and changes no state. -/
def publish_feedback {G R F : Type} (s : AsyncActionServer G R)
    (handle : ExecutingGoalHandle G) (feedback : F) (writeOk : Bool) :
    Except GoalError Unit × AsyncActionServer G R × List (Event R F) :=
  match btGet s.goals handle.inner.goal_id with
  | none => (Except.error GoalError.NoSuchGoal, s, [])
  | some ag =>
    if ag.status = GoalStatusEnum.Executing then
      if writeOk then
        ( Except.ok ()
        , s
        , [Event.feedbackMsg { goal_id := handle.inner.goal_id, feedback := feedback }] )
      else (Except.error GoalError.DDSWriteError, s, [])
    else (Except.error GoalError.WrongGoalState, s, [])

/-- The receive loop inside `send_result_response`: consume the incoming
result-request stream until a request for `target` arrives, inserting each
request for a different goal id into the `result_requests` buffer; `none`
in the first component models the stream never producing a match (the
source loop would stay suspended), with the buffer as mutated so far. -/
def drainResultRequests (target : GoalId) :
    List (RmwRequestId × GetResultRequest) → List (GoalId × RmwRequestId) →
    Option RmwRequestId × List (GoalId × RmwRequestId)
  | [], buf => (none, buf)
  | (req_id, req) :: rest, buf =>
    if req.goal_id = target then (some req_id, buf)
    else drainResultRequests target rest (btInsert req.goal_id req_id buf)

/-- `AsyncActionServer::send_result_response`: obtain the matching result
request (from the buffer, or by draining `incoming`); require status in
{`Accepted`, `Executing`, `Canceling`}; set the terminal status, publish
the status array, then send the `GetResultResponse` (`writeOk` models that
DDS write).  The first component is `none` when the matching result
request never arrives and the call stays suspended. -/
def send_result_response {G R F : Type} (s : AsyncActionServer G R)
    (handle : ExecutingGoalHandle G) (result_status : GoalEndStatus)
    (result : R) (incoming : List (RmwRequestId × GetResultRequest))
    (writeOk : Bool) :
    Option (Except GoalError Unit) × AsyncActionServer G R × List (Event R F) :=
  let status := result_status.toStatusEnum
  let found : Option RmwRequestId × List (GoalId × RmwRequestId) :=
    match btGet s.result_requests handle.inner.goal_id with
    | some req_id => (some req_id, s.result_requests)
    | none => drainResultRequests handle.inner.goal_id incoming s.result_requests
  match found with
  | (none, buf) => (none, { s with result_requests := buf }, [])
  | (some req_id, buf) =>
    match btGet s.goals handle.inner.goal_id with
    | none =>
      ( some (Except.error GoalError.NoSuchGoal)
      , { s with result_requests := buf }
      , [] )
    | some ag =>
      if ag.status = GoalStatusEnum.Accepted ∨ ag.status = GoalStatusEnum.Executing
          ∨ ag.status = GoalStatusEnum.Canceling then
        let goals2 := btModify handle.inner.goal_id
          (fun g0 => { g0 with status := status }) s.goals
        if writeOk then
          ( some (Except.ok ())
          , { goals := goals2, result_requests := buf }
          , [ Event.statusArray (publish_statuses goals2)
            , Event.resultResponse req_id { status := status, result := result } ] )
        else
          ( some (Except.error GoalError.DDSWriteError)
          , { goals := goals2, result_requests := buf }
          , [Event.statusArray (publish_statuses goals2)] )
      else
        ( some (Except.error GoalError.WrongGoalState)
        , { s with result_requests := buf }
        , [] )

/-- The private `AsyncActionServer::abort_goal`: requires status
`Accepted` or `Executing`; sets status `Aborted` and publishes the status
array. -/
def abort_goal {G R F : Type} (s : AsyncActionServer G R)
    (handle : InnerGoalHandle G) :
    Except GoalError Unit × AsyncActionServer G R × List (Event R F) :=
  match btGet s.goals handle.goal_id with
  | none => (Except.error GoalError.NoSuchGoal, s, [])
  | some ag =>
    if ag.status = GoalStatusEnum.Accepted ∨ ag.status = GoalStatusEnum.Executing then
      let goals2 := btModify handle.goal_id
        (fun g0 => { g0 with status := GoalStatusEnum.Aborted }) s.goals
      ( Except.ok ()
      , { s with goals := goals2 }
      , [Event.statusArray (publish_statuses goals2)] )
    else (Except.error GoalError.WrongGoalState, s, [])

/-- `AsyncActionServer::abort_executing_goal`: delegates to `abort_goal`. -/
def abort_executing_goal {G R F : Type} (s : AsyncActionServer G R)
    (handle : ExecutingGoalHandle G) :
    Except GoalError Unit × AsyncActionServer G R × List (Event R F) :=
  abort_goal s handle.inner

/-- `AsyncActionServer::abort_accepted_goal`: delegates to `abort_goal`. -/
def abort_accepted_goal {G R F : Type} (s : AsyncActionServer G R)
    (handle : AcceptedGoalHandle G) :
    Except GoalError Unit × AsyncActionServer G R × List (Event R F) :=
  abort_goal s handle.inner

/-- The `goal_filter` closure of `receive_cancel_request`: the four
(goal_id, stamp) wildcard quadrants, matched in source order. -/
def cancelGoalFilter {G : Type} (goal_info : GoalInfo) (g_id : GoalId)
    (ag : AsyncGoal G) : Bool :=
  if goal_info.goal_id = GoalId.ZERO ∧ goal_info.stamp = Time.ZERO then
    true
  else if goal_info.goal_id = GoalId.ZERO then
    (ag.accepted_time.map (fun t0 => Time.lt t0 goal_info.stamp)).getD false
  else if goal_info.stamp = Time.ZERO then
    goal_info.goal_id = g_id
  else
    goal_info.goal_id = g_id ||
      (ag.accepted_time.map (fun t0 => Time.lt t0 goal_info.stamp)).getD false

/-- `AsyncActionServer::receive_cancel_request` applied to one received
`CancelGoalRequest`: keep the goals whose status is `Executing` or
`Accepted`, then those matched by the wildcard filter, and return their
ids (in registry order) in a `CancelHandle` with the originating request
id.  The registry is not mutated. -/
def receive_cancel_request {G R : Type} (s : AsyncActionServer G R)
    (req_id : RmwRequestId) (req : CancelGoalRequest) : CancelHandle :=
  { req_id := req_id
    goals := ((s.goals.filter (fun kv =>
        kv.2.status = GoalStatusEnum.Executing ∨
          kv.2.status = GoalStatusEnum.Accepted)).filter
        (fun kv => cancelGoalFilter req.goal_info kv.1 kv.2)).map Prod.fst }

/-- The `canceling_goals` collection of `respond_to_cancel_requests`: for
each caller-supplied goal id present in the registry with a known
`accepted_time`, a `GoalInfo` pairing the id with that time. -/
def cancelingGoalInfos {G R : Type} (s : AsyncActionServer G R)
    (goals_to_cancel : List GoalId) : List GoalInfo :=
  goals_to_cancel.filterMap
    (fun goal_id => (btGet s.goals goal_id).bind (fun ag =>
      ag.accepted_time.map (fun stamp => { goal_id := goal_id, stamp := stamp })))

/-- The `for goal_info in &canceling_goals` loop of
`respond_to_cancel_requests`: set each listed record's status to
`Canceling` via `entry().and_modify`. -/
def setCanceling {G : Type} (gis : List GoalInfo)
    (gs : List (GoalId × AsyncGoal G)) : List (GoalId × AsyncGoal G) :=
  gis.foldl (fun gs2 gi =>
    btModify gi.goal_id
      (fun gg => { gg with status := GoalStatusEnum.Canceling }) gs2) gs

/-- `AsyncActionServer::respond_to_cancel_requests`: build the
`canceling_goals` list, set each listed record's status to `Canceling`,
publish the status array, and send a `CancelGoalResponse` whose return
code is `Rejected` exactly when no goal was canceled. -/
def respond_to_cancel_requests {G R F : Type} (s : AsyncActionServer G R)
    (cancel_handle : CancelHandle) (goals_to_cancel : List GoalId)
    (writeOk : Bool) :
    Except GoalError Unit × AsyncActionServer G R × List (Event R F) :=
  let canceling_goals : List GoalInfo := cancelingGoalInfos s goals_to_cancel
  let goals2 := setCanceling canceling_goals s.goals
  let response : CancelGoalResponse :=
    { return_code := if canceling_goals.isEmpty then
        CancelGoalResponseEnum.Rejected else CancelGoalResponseEnum.None
      goals_canceling := canceling_goals }
  if writeOk then
    ( Except.ok ()
    , { s with goals := goals2 }
    , [ Event.statusArray (publish_statuses goals2)
      , Event.cancelResponse cancel_handle.req_id response ] )
  else
    ( Except.error GoalError.DDSWriteError
    , { s with goals := goals2 }
    , [Event.statusArray (publish_statuses goals2)] )

/-- One call of the public `AsyncActionServer` API, with all of its inputs
(including the DDS environment: the clock value, write outcomes, and the
incoming request streams). -/
inductive ServerOp (G R F : Type) where
  | opReceiveNewGoal (incoming : List (RmwRequestId × SendGoalRequest G))
  | opAccept (handle : NewGoalHandle G) (now : Time) (writeOk : Bool)
  | opReject (handle : NewGoalHandle G) (now : Time) (writeOk : Bool)
  | opStartExecuting (handle : AcceptedGoalHandle G)
  | opPublishFeedback (handle : ExecutingGoalHandle G) (feedback : F) (writeOk : Bool)
  | opSendResult (handle : ExecutingGoalHandle G) (result_status : GoalEndStatus)
      (result : R) (incoming : List (RmwRequestId × GetResultRequest)) (writeOk : Bool)
  | opAbortExecuting (handle : ExecutingGoalHandle G)
  | opAbortAccepted (handle : AcceptedGoalHandle G)
  | opRespondCancel (cancel_handle : CancelHandle) (goals_to_cancel : List GoalId)
      (writeOk : Bool)

/-- The error component of an operation outcome (`none` for success or for
a suspended call). -/
def exceptErr {α : Type} : Except GoalError α → Option GoalError
  | Except.error e => some e
  | Except.ok _ => none

/-- The error component of a (possibly suspended) `send_result_response`
outcome. -/
def srrErr {α : Type} : Option (Except GoalError α) → Option GoalError
  | some (Except.error e) => some e
  | _ => none

/-- Run one API call: the post-state, the attempted DDS writes in program
order, and the surfaced error, if any. -/
def runOp {G R F : Type} (op : ServerOp G R F) (s : AsyncActionServer G R) :
    AsyncActionServer G R × List (Event R F) × Option GoalError :=
  match op with
  | ServerOp.opReceiveNewGoal incoming =>
    match receive_new_goal s incoming with
    | none => (s, [], none)
    | some (_, s2, _) => (s2, [], none)
  | ServerOp.opAccept handle now writeOk =>
    let r := accept_goal s handle now writeOk
    (r.2.1, r.2.2, exceptErr r.1)
  | ServerOp.opReject handle now writeOk =>
    let r := reject_goal (F := F) s handle now writeOk
    (r.2.1, r.2.2, exceptErr r.1)
  | ServerOp.opStartExecuting handle =>
    let r := start_executing_goal (F := F) s handle
    (r.2.1, r.2.2, exceptErr r.1)
  | ServerOp.opPublishFeedback handle feedback writeOk =>
    let r := publish_feedback s handle feedback writeOk
    (r.2.1, r.2.2, exceptErr r.1)
  | ServerOp.opSendResult handle result_status result incoming writeOk =>
    let r := send_result_response (F := F) s handle result_status result incoming writeOk
    (r.2.1, r.2.2, srrErr r.1)
  | ServerOp.opAbortExecuting handle =>
    let r := abort_executing_goal (F := F) s handle
    (r.2.1, r.2.2, exceptErr r.1)
  | ServerOp.opAbortAccepted handle =>
    let r := abort_accepted_goal (F := F) s handle
    (r.2.1, r.2.2, exceptErr r.1)
  | ServerOp.opRespondCancel cancel_handle goals_to_cancel writeOk =>
    let r := respond_to_cancel_requests s cancel_handle goals_to_cancel writeOk
    (r.2.1, r.2.2, exceptErr r.1)

/-- The server state after one API call. -/
def stepState {G R F : Type} (op : ServerOp G R F) (s : AsyncActionServer G R) :
    AsyncActionServer G R :=
  (runOp op s).1

/-- The DDS writes attempted by one API call, in program order. -/
def stepEvents {G R F : Type} (op : ServerOp G R F) (s : AsyncActionServer G R) :
    List (Event R F) :=
  (runOp op s).2.1

/-- The error surfaced by one API call, if any. -/
def stepErr {G R F : Type} (op : ServerOp G R F) (s : AsyncActionServer G R) :
    Option GoalError :=
  (runOp op s).2.2

/-- The status-transition relation as the specification states it:
Unknown → Accepted → (Executing | Aborted); Executing → (Succeeded |
Canceling | Aborted); Canceling → (Canceled | Aborted | Succeeded). -/
def specTransition : GoalStatusEnum → GoalStatusEnum → Bool
  | GoalStatusEnum.Unknown, GoalStatusEnum.Accepted => true
  | GoalStatusEnum.Accepted, GoalStatusEnum.Executing => true
  | GoalStatusEnum.Accepted, GoalStatusEnum.Aborted => true
  | GoalStatusEnum.Executing, GoalStatusEnum.Succeeded => true
  | GoalStatusEnum.Executing, GoalStatusEnum.Canceling => true
  | GoalStatusEnum.Executing, GoalStatusEnum.Aborted => true
  | GoalStatusEnum.Canceling, GoalStatusEnum.Canceled => true
  | GoalStatusEnum.Canceling, GoalStatusEnum.Aborted => true
  | GoalStatusEnum.Canceling, GoalStatusEnum.Succeeded => true
  | _, _ => false

/-- The status-transition relation the code actually enforces:
additionally `send_result_response` moves Accepted directly to any
terminal status, and `respond_to_cancel_requests` moves any record with a
recorded `accepted_time` — including a terminal one — to Canceling. -/
def codeTransition : GoalStatusEnum → GoalStatusEnum → Bool
  | GoalStatusEnum.Unknown, GoalStatusEnum.Accepted => true
  | GoalStatusEnum.Accepted, GoalStatusEnum.Executing => true
  | GoalStatusEnum.Accepted, b =>
    b = GoalStatusEnum.Succeeded || b = GoalStatusEnum.Aborted ||
      b = GoalStatusEnum.Canceled || b = GoalStatusEnum.Canceling
  | GoalStatusEnum.Executing, b =>
    b = GoalStatusEnum.Succeeded || b = GoalStatusEnum.Aborted ||
      b = GoalStatusEnum.Canceled || b = GoalStatusEnum.Canceling
  | GoalStatusEnum.Canceling, b =>
    b = GoalStatusEnum.Succeeded || b = GoalStatusEnum.Aborted ||
      b = GoalStatusEnum.Canceled
  | _, GoalStatusEnum.Canceling => true
  | _, _ => false

/-- Unknown records have no acceptance time: `receive_new_goal` inserts
records with `accepted_time = None`, and only `accept_goal` (which leaves
`Unknown`) sets the time.  This reachability invariant is what makes the
acceptance time write-once. -/
def timeInv {G R : Type} (s : AsyncActionServer G R) : Prop :=
  ∀ g ag, btGet s.goals g = some ag →
    ag.status = GoalStatusEnum.Unknown → ag.accepted_time = none

/-- A concrete single-record registry over trivial payload types, used to
instantiate hypotheses at concrete inputs. -/
def exServer (st : GoalStatusEnum) (tm : Option Time) :
    AsyncActionServer Unit Unit :=
  { goals := [(5, { status := st, accepted_time := tm, goal := () })]
    result_requests := [] }

/-- A concrete nonzero timestamp. -/
def exTime : Time := { sec := 10, nanosec := 0 }

/-- An earlier concrete timestamp. -/
def exTime3 : Time := { sec := 3, nanosec := 0 }

/-- A concrete two-record registry: goal 5 Executing and goal 7 already
Succeeded, both accepted at `exTime3`. -/
def exServer2 : AsyncActionServer Unit Unit :=
  { goals := [(5, AsyncGoal.mk GoalStatusEnum.Executing (some exTime3) ()), (7, AsyncGoal.mk GoalStatusEnum.Succeeded (some exTime3) ())]
    result_requests := [] }

/-- A concrete single-record registry with goal 5 Executing, accepted at
`exTime3`, and an empty result-request buffer. -/
def exServerExec : AsyncActionServer Unit Unit :=
  { goals := [(5, AsyncGoal.mk GoalStatusEnum.Executing (some exTime3) ())], result_requests := [] }

/-- The cancel-quadrant predicate written from the specification text, for
comparison with the `cancelGoalFilter` closure embedded from the source:
both wildcards zero → every goal; goal id zero, stamp `t` nonzero →
`accepted_time` is set and strictly before `t`; goal id nonzero, stamp
zero → that goal; both nonzero → that goal or any goal accepted strictly
before `t`. -/
def specCancelPredicate {G : Type} (goal_info : GoalInfo) (g_id : GoalId)
    (ag : AsyncGoal G) : Prop :=
  if goal_info.goal_id = GoalId.ZERO ∧ goal_info.stamp = Time.ZERO then
    True
  else if goal_info.goal_id = GoalId.ZERO then
    ∃ t0, ag.accepted_time = some t0 ∧ Time.lt t0 goal_info.stamp = true
  else if goal_info.stamp = Time.ZERO then
    g_id = goal_info.goal_id
  else
    g_id = goal_info.goal_id ∨
      ∃ t0, ag.accepted_time = some t0 ∧ Time.lt t0 goal_info.stamp = true

theorem btGet_btModify_self {β : Type} (g : GoalId) (f : β → β)
    (l : List (GoalId × β)) : btGet (btModify g f l) g = (btGet l g).map f := by
  induction l with
  | nil => rfl
  | cons p rest ih =>
    obtain ⟨k, v⟩ := p
    by_cases hk : k = g
    · subst hk
      simp [btModify, btGet]
    · simp [btModify, btGet, hk, ih]

theorem btGet_btModify_ne {β : Type} (g : GoalId) (f : β → β)
    (l : List (GoalId × β)) (x : GoalId) (hx : x ≠ g) :
    btGet (btModify g f l) x = btGet l x := by
  induction l with
  | nil => rfl
  | cons p rest ih =>
    obtain ⟨k, v⟩ := p
    by_cases hk : k = g
    · subst hk
      have : ¬ (k = x) := fun h => hx h.symm
      simp [btModify, btGet, this, ih]
    · by_cases hkx : k = x
      · subst hkx
        simp [btModify, btGet, hk]
      · simp [btModify, btGet, hk, hkx, ih]

theorem btKeys_btModify {β : Type} (g : GoalId) (f : β → β)
    (l : List (GoalId × β)) : btKeys (btModify g f l) = btKeys l := by
  induction l with
  | nil => rfl
  | cons p rest ih =>
    obtain ⟨k, v⟩ := p
    by_cases hk : k = g
    · simp [btModify, btKeys, hk, ih] at ih ⊢
      exact ih
    · simp [btModify, btKeys, hk] at ih ⊢
      exact ih

theorem mem_btInsertNew {β : Type} (g : GoalId) (v : β)
    (l : List (GoalId × β)) (p : GoalId × β) :
    p ∈ btInsertNew g v l ↔ p = (g, v) ∨ p ∈ l := by
  induction l with
  | nil => simp [btInsertNew]
  | cons q rest ih =>
    obtain ⟨k, w⟩ := q
    by_cases hk : g < k
    · simp [btInsertNew, hk]
    · simp only [btInsertNew, hk, if_false, List.mem_cons, ih]
      tauto

theorem btKeys_btInsertNew_mem {β : Type} (g : GoalId) (v : β)
    (l : List (GoalId × β)) (x : GoalId) :
    x ∈ btKeys (btInsertNew g v l) ↔ x = g ∨ x ∈ btKeys l := by
  simp only [btKeys, List.mem_map]
  constructor
  · rintro ⟨p, hp, rfl⟩
    rcases (mem_btInsertNew g v l p).mp hp with h | h
    · left
      rw [h]
    · right
      exact ⟨p, h, rfl⟩
  · rintro (rfl | ⟨p, hp, rfl⟩)
    · exact ⟨(x, v), (mem_btInsertNew x v l _).mpr (Or.inl rfl), rfl⟩
    · exact ⟨p, (mem_btInsertNew g v l p).mpr (Or.inr hp), rfl⟩

theorem btGet_btInsertNew_ne {β : Type} (g : GoalId) (v : β)
    (l : List (GoalId × β)) (x : GoalId) (hx : x ≠ g) :
    btGet (btInsertNew g v l) x = btGet l x := by
  induction l with
  | nil =>
    have : ¬ (g = x) := fun h => hx h.symm
    simp [btInsertNew, btGet, this]
  | cons q rest ih =>
    obtain ⟨k, w⟩ := q
    by_cases hk : g < k
    · have : ¬ (g = x) := fun h => hx h.symm
      simp [btInsertNew, btGet, hk, this]
    · by_cases hkx : k = x
      · subst hkx
        simp [btInsertNew, btGet, hk]
      · simp [btInsertNew, btGet, hk, hkx, ih]

theorem btGet_btInsertNew_fresh {β : Type} (g : GoalId) (v : β)
    (l : List (GoalId × β)) (hg : g ∉ btKeys l) :
    btGet (btInsertNew g v l) g = some v := by
  induction l with
  | nil => simp [btInsertNew, btGet]
  | cons q rest ih =>
    obtain ⟨k, w⟩ := q
    have hk2 : k ≠ g := by
      intro h
      exact hg (by simp [btKeys, h])
    have hg2 : g ∉ btKeys rest := by
      intro h
      exact hg (by simp [btKeys] at h ⊢; tauto)
    by_cases hk : g < k
    · simp [btInsertNew, btGet, hk]
    · simp [btInsertNew, btGet, hk, hk2, ih hg2]

theorem btSorted_btInsertNew {β : Type} (g : GoalId) (v : β)
    (l : List (GoalId × β)) (hs : btSorted l) (hg : g ∉ btKeys l) :
    btSorted (btInsertNew g v l) := by
  induction l with
  | nil => simp [btInsertNew, btSorted, btKeys]
  | cons q rest ih =>
    obtain ⟨k, w⟩ := q
    simp only [btSorted, btKeys, List.map_cons, List.pairwise_cons] at hs
    obtain ⟨hkrest, hrest⟩ := hs
    have hk2 : k ≠ g := by
      intro h
      exact hg (by simp [btKeys, h])
    have hg2 : g ∉ btKeys rest := by
      intro h
      exact hg (by simp [btKeys] at h ⊢; tauto)
    by_cases hk : g < k
    · simp only [btInsertNew, hk, if_true, btSorted, btKeys, List.map_cons,
        List.pairwise_cons]
      refine ⟨?_, ?_, hrest⟩
      · intro x hx
        rcases List.mem_cons.mp hx with rfl | hx
        · exact hk
        · exact lt_trans hk (hkrest x hx)
      · exact hkrest
    · have hkg : k < g := by
        rcases Nat.lt_trichotomy g k with h | h | h
        · exact absurd h hk
        · exact absurd h hk2.symm
        · exact h
      simp only [btInsertNew, hk, if_false, btSorted, btKeys, List.map_cons,
        List.pairwise_cons]
      constructor
      · intro x hx
        have hx2 := (btKeys_btInsertNew_mem g v rest x).mp hx
        rcases hx2 with rfl | hx2
        · exact hkg
        · exact hkrest x hx2
      · exact ih hrest hg2

theorem btSorted_nodup {β : Type} (l : List (GoalId × β)) (hs : btSorted l) :
    (btKeys l).Nodup := by
  exact hs.imp (fun h => Nat.ne_of_lt h)

theorem btGet_some_mem {β : Type} (l : List (GoalId × β)) (g : GoalId) (v : β)
    (h : btGet l g = some v) : (g, v) ∈ l := by
  induction l with
  | nil => simp [btGet] at h
  | cons q rest ih =>
    obtain ⟨k, w⟩ := q
    by_cases hk : k = g
    · subst hk
      simp [btGet] at h
      simp [h]
    · simp [btGet, hk] at h
      simp [ih h]

theorem mem_btGet_of_nodup {β : Type} (l : List (GoalId × β)) (g : GoalId)
    (v : β) (hn : (btKeys l).Nodup) (h : (g, v) ∈ l) : btGet l g = some v := by
  induction l with
  | nil => simp at h
  | cons q rest ih =>
    obtain ⟨k, w⟩ := q
    simp only [btKeys, List.map_cons, List.nodup_cons] at hn
    rcases List.mem_cons.mp h with h1 | h1
    · have hk : k = g := by
        have := congrArg Prod.fst h1.symm
        exact this
      have hv : w = v := by
        have := congrArg Prod.snd h1.symm
        exact this
      simp [btGet, hk, hv]
    · by_cases hk : k = g
      · exfalso
        apply hn.1
        subst hk
        exact List.mem_map.mpr ⟨(k, v), h1, rfl⟩
      · simp [btGet, hk]
        exact ih hn.2 h1

theorem btGet_isSome_iff_mem {β : Type} (l : List (GoalId × β)) (g : GoalId) :
    (btGet l g).isSome = true ↔ g ∈ btKeys l := by
  induction l with
  | nil => simp [btGet, btKeys]
  | cons q rest ih =>
    obtain ⟨k, w⟩ := q
    by_cases hk : k = g
    · simp [btGet, btKeys, hk]
    · have : ¬ (g = k) := fun h => hk h.symm
      simp [btGet, btKeys, hk, this, ih]

theorem btKeys_btInsert_mem {β : Type} (g : GoalId) (v : β)
    (l : List (GoalId × β)) (x : GoalId) :
    x ∈ btKeys (btInsert g v l) ↔ x = g ∨ x ∈ btKeys l := by
  induction l with
  | nil => simp [btInsert, btKeys]
  | cons q rest ih =>
    obtain ⟨k, w⟩ := q
    by_cases h1 : g < k
    · simp [btInsert, btKeys, h1]
    · by_cases h2 : g = k
      · subst h2
        simp only [btInsert, h1, if_false, if_pos rfl]
        simp [btKeys]
      · simp only [btInsert, h1, h2, if_false, btKeys, List.map_cons,
          List.mem_cons]
        rw [btKeys] at ih
        rw [ih]
        tauto

theorem btKeys_setCanceling {G : Type} (gis : List GoalInfo)
    (gs : List (GoalId × AsyncGoal G)) :
    btKeys (setCanceling gis gs) = btKeys gs := by
  induction gis generalizing gs with
  | nil => rfl
  | cons gi rest ih =>
    have hstep : setCanceling (gi :: rest) gs =
        setCanceling rest (btModify gi.goal_id
          (fun gg => { gg with status := GoalStatusEnum.Canceling }) gs) := by
      simp [setCanceling]
    rw [hstep, ih, btKeys_btModify]

theorem btGet_setCanceling {G : Type} (gis : List GoalInfo)
    (gs : List (GoalId × AsyncGoal G)) (g : GoalId) :
    btGet (setCanceling gis gs) g =
      if g ∈ gis.map GoalInfo.goal_id then
        (btGet gs g).map (fun ag => { ag with status := GoalStatusEnum.Canceling })
      else btGet gs g := by
  induction gis generalizing gs with
  | nil => simp [setCanceling]
  | cons gi rest ih =>
    have hstep : setCanceling (gi :: rest) gs =
        setCanceling rest (btModify gi.goal_id
          (fun gg => { gg with status := GoalStatusEnum.Canceling }) gs) := by
      simp [setCanceling]
    rw [hstep, ih]
    by_cases hgi : g = gi.goal_id
    · have hmem : g ∈ (gi :: rest).map GoalInfo.goal_id := by
        simp [hgi]
      rw [if_pos hmem, hgi]
      by_cases hrest : gi.goal_id ∈ rest.map GoalInfo.goal_id
      · rw [if_pos hrest, btGet_btModify_self]
        cases btGet gs gi.goal_id with
        | none => rfl
        | some ag => rfl
      · rw [if_neg hrest, btGet_btModify_self]
    · have hmem : g ∈ (gi :: rest).map GoalInfo.goal_id ↔
          g ∈ rest.map GoalInfo.goal_id := by
        simp only [List.map_cons, List.mem_cons]
        constructor
        · rintro (h | h)
          · exact absurd h hgi
          · exact h
        · exact Or.inr
      rw [btGet_btModify_ne _ _ _ _ hgi]
      by_cases hrest : g ∈ rest.map GoalInfo.goal_id
      · rw [if_pos hrest, if_pos (hmem.mpr hrest)]
      · rw [if_neg hrest, if_neg (fun h => hrest (hmem.mp h))]

theorem drain_none_no_match (t : GoalId)
    (inc : List (RmwRequestId × GetResultRequest))
    (buf : List (GoalId × RmwRequestId))
    (h : (drainResultRequests t inc buf).1 = none) :
    ∀ p ∈ inc, p.2.goal_id ≠ t := by
  induction inc generalizing buf with
  | nil => simp
  | cons q rest ih =>
    obtain ⟨rid, req⟩ := q
    by_cases hq : req.goal_id = t
    · rw [drainResultRequests, if_pos hq] at h
      simp at h
    · rw [drainResultRequests, if_neg hq] at h
      intro p hp
      rcases List.mem_cons.mp hp with rfl | hp
      · exact hq
      · exact ih _ h p hp

theorem drain_isSome_of_match (t : GoalId)
    (inc : List (RmwRequestId × GetResultRequest))
    (buf : List (GoalId × RmwRequestId))
    (h : ∃ p ∈ inc, p.2.goal_id = t) :
    ((drainResultRequests t inc buf).1).isSome = true := by
  cases hd : (drainResultRequests t inc buf).1 with
  | some rid => rfl
  | none =>
    obtain ⟨p, hp, hpt⟩ := h
    exact absurd hpt (drain_none_no_match t inc buf hd p hp)

theorem drain_keys_mono (t : GoalId)
    (inc : List (RmwRequestId × GetResultRequest))
    (buf : List (GoalId × RmwRequestId)) (x : GoalId)
    (hx : x ∈ btKeys buf) :
    x ∈ btKeys (drainResultRequests t inc buf).2 := by
  induction inc generalizing buf with
  | nil => exact hx
  | cons q rest ih =>
    obtain ⟨rid, req⟩ := q
    by_cases hq : req.goal_id = t
    · rw [drainResultRequests, if_pos hq]
      exact hx
    · rw [drainResultRequests, if_neg hq]
      exact ih _ ((btKeys_btInsert_mem req.goal_id rid buf x).mpr (Or.inr hx))

theorem drain_buffers (t : GoalId) (l1 : List (RmwRequestId × GetResultRequest))
    (p : RmwRequestId × GetResultRequest)
    (l2 : List (RmwRequestId × GetResultRequest))
    (buf : List (GoalId × RmwRequestId))
    (h1 : ∀ q ∈ l1, q.2.goal_id ≠ t) (hp : p.2.goal_id ≠ t) :
    p.2.goal_id ∈ btKeys (drainResultRequests t (l1 ++ p :: l2) buf).2 := by
  induction l1 generalizing buf with
  | nil =>
    obtain ⟨rid, req⟩ := p
    rw [List.nil_append, drainResultRequests, if_neg hp]
    exact drain_keys_mono t l2 _ _
      ((btKeys_btInsert_mem req.goal_id rid buf _).mpr (Or.inl rfl))
  | cons q rest ih =>
    obtain ⟨rid2, req2⟩ := q
    have hq : req2.goal_id ≠ t := h1 (rid2, req2) (List.mem_cons_self _ _)
    rw [List.cons_append, drainResultRequests, if_neg hq]
    exact ih _ (fun r hr => h1 r (List.mem_cons_of_mem _ hr))

theorem receive_new_goal_spec {G R : Type} (s : AsyncActionServer G R)
    (inc : List (RmwRequestId × SendGoalRequest G))
    (handle : NewGoalHandle G) (s2 : AsyncActionServer G R)
    (rest : List (RmwRequestId × SendGoalRequest G))
    (h : receive_new_goal s inc = some (handle, s2, rest)) :
    btGet s.goals handle.inner.goal_id = none ∧
    (∃ gp : G, s2.goals = btInsertNew handle.inner.goal_id
      { status := GoalStatusEnum.Unknown, accepted_time := none, goal := gp }
      s.goals) ∧
    s2.result_requests = s.result_requests := by
  induction inc with
  | nil => simp [receive_new_goal] at h
  | cons q inc2 ih =>
    obtain ⟨rid, req⟩ := q
    by_cases hq : (btGet s.goals req.goal_id).isSome = true
    · rw [receive_new_goal, if_pos hq] at h
      exact ih h
    · rw [receive_new_goal, if_neg hq] at h
      simp only [Option.some_inj, Prod.mk.injEq] at h
      obtain ⟨hh, hs, hr⟩ := h
      subst hh
      subst hs
      refine ⟨?_, ⟨req.goal, rfl⟩, rfl⟩
      cases hg : btGet s.goals req.goal_id with
      | none => rfl
      | some ag =>
        rw [hg] at hq
        simp at hq

theorem btSorted_congr {β : Type} (l l' : List (GoalId × β))
    (h : btKeys l = btKeys l') : btSorted l ↔ btSorted l' := by
  rw [btSorted, btSorted, h]

theorem accept_goal_goals {G R F : Type} (s : AsyncActionServer G R)
    (handle : NewGoalHandle G) (now : Time) (w : Bool) :
    (accept_goal (F := F) s handle now w).2.1.goals = s.goals ∨
    (∃ ag, btGet s.goals handle.inner.goal_id = some ag ∧
      ag.status = GoalStatusEnum.Unknown ∧
      (accept_goal (F := F) s handle now w).2.1.goals =
        btModify handle.inner.goal_id
          (fun g0 =>
            { g0 with
              status := GoalStatusEnum.Accepted
              accepted_time := some now }) s.goals) := by
  rw [accept_goal]
  split
  next => left; rfl
  next ag hg =>
    by_cases hst : ag.status = GoalStatusEnum.Unknown
    · rw [if_pos hst]
      right
      refine ⟨ag, hg, hst, ?_⟩
      cases w <;> rfl
    · rw [if_neg hst]
      left
      rfl

theorem reject_goal_state {G R F : Type} (s : AsyncActionServer G R)
    (handle : NewGoalHandle G) (now : Time) (w : Bool) :
    (reject_goal (F := F) s handle now w).2.1 = s := by
  rw [reject_goal]
  split
  next => rfl
  next ag hg =>
    by_cases hst : ag.status = GoalStatusEnum.Unknown
    · rw [if_pos hst]
      cases w <;> rfl
    · rw [if_neg hst]

theorem start_executing_goal_goals {G R F : Type} (s : AsyncActionServer G R)
    (handle : AcceptedGoalHandle G) :
    (start_executing_goal (F := F) s handle).2.1.goals = s.goals ∨
    (∃ ag, btGet s.goals handle.inner.goal_id = some ag ∧
      ag.status = GoalStatusEnum.Accepted ∧
      (start_executing_goal (F := F) s handle).2.1.goals =
        btModify handle.inner.goal_id
          (fun g0 => { g0 with status := GoalStatusEnum.Executing }) s.goals) := by
  rw [start_executing_goal]
  split
  next => left; rfl
  next ag hg =>
    by_cases hst : ag.status = GoalStatusEnum.Accepted
    · rw [if_pos hst]
      right
      exact ⟨ag, hg, hst, rfl⟩
    · rw [if_neg hst]
      left
      rfl

theorem publish_feedback_state {G R F : Type} (s : AsyncActionServer G R)
    (handle : ExecutingGoalHandle G) (feedback : F) (w : Bool) :
    (publish_feedback s handle feedback w).2.1 = s := by
  rw [publish_feedback]
  split
  next => rfl
  next ag hg =>
    by_cases hst : ag.status = GoalStatusEnum.Executing
    · rw [if_pos hst]
      cases w <;> rfl
    · rw [if_neg hst]

theorem abort_goal_goals {G R F : Type} (s : AsyncActionServer G R)
    (handle : InnerGoalHandle G) :
    (abort_goal (F := F) s handle).2.1.goals = s.goals ∨
    (∃ ag, btGet s.goals handle.goal_id = some ag ∧
      (ag.status = GoalStatusEnum.Accepted ∨ ag.status = GoalStatusEnum.Executing) ∧
      (abort_goal (F := F) s handle).2.1.goals =
        btModify handle.goal_id
          (fun g0 => { g0 with status := GoalStatusEnum.Aborted }) s.goals) := by
  rw [abort_goal]
  split
  next => left; rfl
  next ag hg =>
    by_cases hst : ag.status = GoalStatusEnum.Accepted ∨
        ag.status = GoalStatusEnum.Executing
    · rw [if_pos hst]
      right
      exact ⟨ag, hg, hst, rfl⟩
    · rw [if_neg hst]
      left
      rfl

theorem send_result_response_goals {G R F : Type} (s : AsyncActionServer G R)
    (handle : ExecutingGoalHandle G) (result_status : GoalEndStatus) (result : R)
    (incoming : List (RmwRequestId × GetResultRequest)) (w : Bool) :
    (send_result_response (F := F) s handle result_status result incoming w).2.1.goals
      = s.goals ∨
    (∃ ag, btGet s.goals handle.inner.goal_id = some ag ∧
      (ag.status = GoalStatusEnum.Accepted ∨ ag.status = GoalStatusEnum.Executing
        ∨ ag.status = GoalStatusEnum.Canceling) ∧
      (send_result_response (F := F) s handle result_status result incoming w).2.1.goals
        = btModify handle.inner.goal_id
            (fun g0 => { g0 with status := result_status.toStatusEnum }) s.goals) := by
  rw [send_result_response]
  split
  next buf heq => left; rfl
  next req_id buf heq =>
    split
    next => left; rfl
    next ag hg =>
      by_cases hst : ag.status = GoalStatusEnum.Accepted ∨
          ag.status = GoalStatusEnum.Executing ∨ ag.status = GoalStatusEnum.Canceling
      · rw [if_pos hst]
        right
        refine ⟨ag, hg, hst, ?_⟩
        cases w <;> rfl
      · rw [if_neg hst]
        left
        rfl

theorem respond_to_cancel_requests_state {G R F : Type} (s : AsyncActionServer G R)
    (cancel_handle : CancelHandle) (goals_to_cancel : List GoalId) (w : Bool) :
    (respond_to_cancel_requests (F := F) s cancel_handle goals_to_cancel w).2.1.goals
      = setCanceling (cancelingGoalInfos s goals_to_cancel) s.goals ∧
    (respond_to_cancel_requests (F := F) s cancel_handle goals_to_cancel w).2.1.result_requests
      = s.result_requests := by
  rw [respond_to_cancel_requests]
  cases w <;> exact ⟨rfl, rfl⟩

theorem mem_map_cancelingGoalInfos {G R : Type} (s : AsyncActionServer G R)
    (goals_to_cancel : List GoalId) (g : GoalId)
    (h : g ∈ (cancelingGoalInfos s goals_to_cancel).map GoalInfo.goal_id) :
    ∃ ag t0, btGet s.goals g = some ag ∧ ag.accepted_time = some t0 := by
  simp only [cancelingGoalInfos, List.map_filterMap, List.mem_filterMap] at h
  obtain ⟨gid, _, hbind⟩ := h
  cases hget : btGet s.goals gid with
  | none => rw [hget] at hbind; simp at hbind
  | some ag =>
    rw [hget] at hbind
    simp only [Option.some_bind] at hbind
    cases htime : ag.accepted_time with
    | none =>
      rw [htime] at hbind
      simp at hbind
    | some t0 =>
      rw [htime] at hbind
      simp at hbind
      exact hbind ▸ ⟨ag, t0, hget, htime⟩

theorem stepState_goals_shape {G R F : Type} (op : ServerOp G R F)
    (s : AsyncActionServer G R) :
    (stepState op s).goals = s.goals ∨
    (∃ gid f, (∀ ag : AsyncGoal G, (f ag).accepted_time = ag.accepted_time ∧
        (f ag).status ≠ GoalStatusEnum.Unknown) ∧
      (stepState op s).goals = btModify gid f s.goals) ∨
    (∃ gid t1 ag0, btGet s.goals gid = some ag0 ∧
      ag0.status = GoalStatusEnum.Unknown ∧
      (stepState op s).goals = btModify gid
        (fun g0 =>
          { g0 with
            status := GoalStatusEnum.Accepted
            accepted_time := some t1 }) s.goals) ∨
    (∃ gis : List GoalInfo,
      (∀ g2, g2 ∈ gis.map GoalInfo.goal_id →
        ∃ ag t0, btGet s.goals g2 = some ag ∧ ag.accepted_time = some t0) ∧
      (stepState op s).goals = setCanceling gis s.goals) ∨
    (∃ gid gp, btGet s.goals gid = none ∧
      (stepState op s).goals = btInsertNew gid
        { status := GoalStatusEnum.Unknown, accepted_time := none, goal := gp }
        s.goals) := by
  cases op with
  | opReceiveNewGoal incoming =>
    rw [stepState, runOp]
    cases hr : receive_new_goal s incoming with
    | none =>
      left
      rfl
    | some out =>
      obtain ⟨handle, s2, rest⟩ := out
      obtain ⟨hnone, ⟨gp, hins⟩, _⟩ := receive_new_goal_spec s incoming handle s2 rest hr
      right; right; right; right
      exact ⟨handle.inner.goal_id, gp, hnone, hins⟩
  | opAccept handle now w =>
    rcases accept_goal_goals (F := F) s handle now w with h | ⟨ag, hget, hst, h⟩
    · left
      exact h
    · right; right; left
      exact ⟨handle.inner.goal_id, now, ag, hget, hst, h⟩
  | opReject handle now w =>
    left
    rw [stepState, runOp, reject_goal_state]
  | opStartExecuting handle =>
    rcases start_executing_goal_goals (F := F) s handle with h | ⟨ag, hget, hst, h⟩
    · left
      exact h
    · right; left
      refine ⟨handle.inner.goal_id, _, ?_, h⟩
      intro ag2
      exact ⟨rfl, by simp⟩
  | opPublishFeedback handle feedback w =>
    left
    rw [stepState, runOp, publish_feedback_state]
  | opSendResult handle result_status result incoming w =>
    rcases send_result_response_goals (F := F) s handle result_status result incoming w
      with h | ⟨ag, hget, hst, h⟩
    · left
      exact h
    · right; left
      refine ⟨handle.inner.goal_id, _, ?_, h⟩
      intro ag2
      refine ⟨rfl, ?_⟩
      cases result_status <;> simp [GoalEndStatus.toStatusEnum]
  | opAbortExecuting handle =>
    rcases abort_goal_goals (F := F) s handle.inner with h | ⟨ag, hget, hst, h⟩
    · left
      exact h
    · right; left
      refine ⟨handle.inner.goal_id, _, ?_, h⟩
      intro ag2
      exact ⟨rfl, by simp⟩
  | opAbortAccepted handle =>
    rcases abort_goal_goals (F := F) s handle.inner with h | ⟨ag, hget, hst, h⟩
    · left
      exact h
    · right; left
      refine ⟨handle.inner.goal_id, _, ?_, h⟩
      intro ag2
      exact ⟨rfl, by simp⟩
  | opRespondCancel cancel_handle goals_to_cancel w =>
    right; right; right; left
    refine ⟨cancelingGoalInfos s goals_to_cancel, ?_, ?_⟩
    · intro g2 hg2
      exact mem_map_cancelingGoalInfos s goals_to_cancel g2 hg2
    · rw [stepState, runOp]
      exact (respond_to_cancel_requests_state (F := F) s cancel_handle goals_to_cancel w).1

theorem stepState_sorted {G R F : Type} (op : ServerOp G R F)
    (s : AsyncActionServer G R) (hs : btSorted s.goals) :
    btSorted (stepState op s).goals := by
  rcases stepState_goals_shape op s with h | ⟨gid, f, _, h⟩
    | ⟨gid, t1, ag0, _, _, h⟩ | ⟨gis, _, h⟩ | ⟨gid, gp, hnone, h⟩
  · rw [h]
    exact hs
  · rw [h]
    exact (btSorted_congr _ _ (btKeys_btModify gid f s.goals)).mpr hs
  · rw [h]
    exact (btSorted_congr _ _ (btKeys_btModify gid _ s.goals)).mpr hs
  · rw [h]
    exact (btSorted_congr _ _ (btKeys_setCanceling gis s.goals)).mpr hs
  · rw [h]
    apply btSorted_btInsertNew _ _ _ hs
    intro hmem
    rw [← btGet_isSome_iff_mem] at hmem
    rw [hnone] at hmem
    simp at hmem

theorem stepState_time_preserved {G R F : Type} (op : ServerOp G R F)
    (s : AsyncActionServer G R) (hinv : timeInv s) (g : GoalId)
    (ag : AsyncGoal G) (t0 : Time) (h1 : btGet s.goals g = some ag)
    (h2 : ag.accepted_time = some t0) :
    ∃ ag', btGet (stepState op s).goals g = some ag' ∧
      ag'.accepted_time = some t0 := by
  rcases stepState_goals_shape op s with h | ⟨gid, f, hf, h⟩
    | ⟨gid, t1, ag0, hget0, hst0, h⟩ | ⟨gis, hg, h⟩ | ⟨gid, gp, hnone, h⟩
  · exact ⟨ag, h ▸ h1, h2⟩
  · rw [h]
    by_cases hgid : g = gid
    · rw [hgid, btGet_btModify_self]
      rw [hgid] at h1
      rw [h1]
      exact ⟨f ag, rfl, (hf ag).1.trans h2⟩
    · rw [btGet_btModify_ne _ _ _ _ hgid, h1]
      exact ⟨ag, rfl, h2⟩
  · by_cases hgid : g = gid
    · exfalso
      rw [hgid, hget0] at h1
      have hag : ag = ag0 := Option.some_inj.mp h1.symm
      have := hinv gid ag0 hget0 hst0
      rw [hag, this] at h2
      exact Option.noConfusion h2
    · rw [h, btGet_btModify_ne _ _ _ _ hgid, h1]
      exact ⟨ag, rfl, h2⟩
  · rw [h, btGet_setCanceling]
    by_cases hmem : g ∈ gis.map GoalInfo.goal_id
    · rw [if_pos hmem, h1]
      exact ⟨_, rfl, h2⟩
    · rw [if_neg hmem, h1]
      exact ⟨ag, rfl, h2⟩
  · rw [h]
    have hne : g ≠ gid := by
      intro hgg
      rw [hgg, hnone] at h1
      exact Option.noConfusion h1
    rw [btGet_btInsertNew_ne _ _ _ _ hne, h1]
    exact ⟨ag, rfl, h2⟩

theorem timeInv_step {G R F : Type} (op : ServerOp G R F)
    (s : AsyncActionServer G R) (hinv : timeInv s) :
    timeInv (stepState op s) := by
  intro g ag' hget hst
  rcases stepState_goals_shape op s with h | ⟨gid, f, hf, h⟩
    | ⟨gid, t1, ag0, hget0, hst0, h⟩ | ⟨gis, hg, h⟩ | ⟨gid, gp, hnone, h⟩
  · rw [h] at hget
    exact hinv g ag' hget hst
  · rw [h] at hget
    by_cases hgid : g = gid
    · rw [hgid, btGet_btModify_self] at hget
      cases hbase : btGet s.goals gid with
      | none =>
        rw [hbase] at hget
        exact Option.noConfusion hget
      | some agb =>
        rw [hbase] at hget
        rw [Option.map_some'] at hget
        have hag : ag' = f agb := (Option.some_inj.mp hget).symm
        exact absurd (hag ▸ hst) ((hf agb).2)
    · rw [btGet_btModify_ne _ _ _ _ hgid] at hget
      exact hinv g ag' hget hst
  · rw [h] at hget
    by_cases hgid : g = gid
    · rw [hgid, btGet_btModify_self, hget0, Option.map_some'] at hget
      have hag := (Option.some_inj.mp hget).symm
      rw [hag] at hst
      simp at hst
    · rw [btGet_btModify_ne _ _ _ _ hgid] at hget
      exact hinv g ag' hget hst
  · rw [h, btGet_setCanceling] at hget
    by_cases hmem : g ∈ gis.map GoalInfo.goal_id
    · rw [if_pos hmem] at hget
      cases hbase : btGet s.goals g with
      | none =>
        rw [hbase] at hget
        exact Option.noConfusion hget
      | some agb =>
        rw [hbase, Option.map_some'] at hget
        have hag : ag' = { agb with status := GoalStatusEnum.Canceling } :=
          (Option.some_inj.mp hget).symm
        rw [hag] at hst
        simp at hst
    · rw [if_neg hmem] at hget
      exact hinv g ag' hget hst
  · rw [h] at hget
    by_cases hgid : g = gid
    · have hfresh : gid ∉ btKeys s.goals := by
        intro hmem
        rw [← btGet_isSome_iff_mem, hnone] at hmem
        simp at hmem
      rw [hgid, btGet_btInsertNew_fresh _ _ _ hfresh] at hget
      have hag : ag' = { status := GoalStatusEnum.Unknown, accepted_time := none, goal := gp } :=
        (Option.some_inj.mp hget).symm
      rw [hag]
    · rw [btGet_btInsertNew_ne _ _ _ _ hgid] at hget
      exact hinv g ag' hget hst

theorem accept_goal_statusArray {G R F : Type} (s : AsyncActionServer G R)
    (handle : NewGoalHandle G) (now : Time) (w : Bool) (arr : GoalStatusArray)
    (h : Event.statusArray arr ∈ (accept_goal (F := F) s handle now w).2.2) :
    arr = publish_statuses (accept_goal (F := F) s handle now w).2.1.goals := by
  rw [accept_goal] at h ⊢
  split at h
  next heq => simp at h
  next ag heq =>
    by_cases hst : ag.status = GoalStatusEnum.Unknown
    · rw [if_pos hst] at h ⊢
      cases w
      · simp at h
        exact h.trans rfl
      · simp at h
        exact h.trans rfl
    · rw [if_neg hst] at h ⊢
      simp at h

theorem reject_goal_statusArray {G R F : Type} (s : AsyncActionServer G R)
    (handle : NewGoalHandle G) (now : Time) (w : Bool) (arr : GoalStatusArray)
    (h : Event.statusArray arr ∈ (reject_goal (F := F) s handle now w).2.2) :
    False := by
  rw [reject_goal] at h
  split at h
  next heq => simp at h
  next ag heq =>
    by_cases hst : ag.status = GoalStatusEnum.Unknown
    · rw [if_pos hst] at h
      cases w
      · simp at h
      · simp at h
    · rw [if_neg hst] at h
      simp at h

theorem start_executing_goal_statusArray {G R F : Type} (s : AsyncActionServer G R)
    (handle : AcceptedGoalHandle G) (arr : GoalStatusArray)
    (h : Event.statusArray arr ∈ (start_executing_goal (F := F) s handle).2.2) :
    arr = publish_statuses (start_executing_goal (F := F) s handle).2.1.goals := by
  rw [start_executing_goal] at h ⊢
  split at h
  next heq => simp at h
  next ag heq =>
    by_cases hst : ag.status = GoalStatusEnum.Accepted
    · rw [if_pos hst] at h ⊢
      simp at h
      exact h.trans rfl
    · rw [if_neg hst] at h ⊢
      simp at h

theorem publish_feedback_statusArray {G R F : Type} (s : AsyncActionServer G R)
    (handle : ExecutingGoalHandle G) (feedback : F) (w : Bool)
    (arr : GoalStatusArray)
    (h : Event.statusArray arr ∈ (publish_feedback s handle feedback w).2.2) :
    False := by
  rw [publish_feedback] at h
  split at h
  next heq => simp at h
  next ag heq =>
    by_cases hst : ag.status = GoalStatusEnum.Executing
    · rw [if_pos hst] at h
      cases w
      · simp at h
      · simp at h
    · rw [if_neg hst] at h
      simp at h

theorem abort_goal_statusArray {G R F : Type} (s : AsyncActionServer G R)
    (handle : InnerGoalHandle G) (arr : GoalStatusArray)
    (h : Event.statusArray arr ∈ (abort_goal (F := F) s handle).2.2) :
    arr = publish_statuses (abort_goal (F := F) s handle).2.1.goals := by
  rw [abort_goal] at h ⊢
  split at h
  next heq => simp at h
  next ag heq =>
    by_cases hst : ag.status = GoalStatusEnum.Accepted ∨
        ag.status = GoalStatusEnum.Executing
    · rw [if_pos hst] at h ⊢
      simp at h
      exact h.trans rfl
    · rw [if_neg hst] at h ⊢
      simp at h

theorem send_result_response_statusArray {G R F : Type} (s : AsyncActionServer G R)
    (handle : ExecutingGoalHandle G) (result_status : GoalEndStatus) (result : R)
    (incoming : List (RmwRequestId × GetResultRequest)) (w : Bool)
    (arr : GoalStatusArray)
    (h : Event.statusArray arr ∈
      (send_result_response (F := F) s handle result_status result incoming w).2.2) :
    arr = publish_statuses
      (send_result_response (F := F) s handle result_status result incoming w).2.1.goals := by
  rw [send_result_response] at h ⊢
  split at h
  next buf heq => simp at h
  next req_id buf heq =>
    split at h
    next heq2 => simp at h
    next ag heq2 =>
      by_cases hst : ag.status = GoalStatusEnum.Accepted ∨
          ag.status = GoalStatusEnum.Executing ∨ ag.status = GoalStatusEnum.Canceling
      · rw [if_pos hst] at h ⊢
        cases w
        · simp at h
          exact h.trans rfl
        · simp at h
          exact h.trans rfl
      · rw [if_neg hst] at h ⊢
        simp at h

theorem respond_to_cancel_requests_statusArray {G R F : Type}
    (s : AsyncActionServer G R) (cancel_handle : CancelHandle)
    (goals_to_cancel : List GoalId) (w : Bool) (arr : GoalStatusArray)
    (h : Event.statusArray arr ∈
      (respond_to_cancel_requests (F := F) s cancel_handle goals_to_cancel w).2.2) :
    arr = publish_statuses
      (respond_to_cancel_requests (F := F) s cancel_handle goals_to_cancel w).2.1.goals := by
  rw [respond_to_cancel_requests] at h ⊢
  cases w
  · simp at h
    exact h.trans rfl
  · simp at h
    exact h.trans rfl

theorem stepEvents_statusArray {G R F : Type} (op : ServerOp G R F)
    (s : AsyncActionServer G R) (arr : GoalStatusArray)
    (h : Event.statusArray arr ∈ stepEvents op s) :
    arr = publish_statuses (stepState op s).goals := by
  cases op with
  | opReceiveNewGoal incoming =>
    rw [stepEvents, runOp] at h
    cases hr : receive_new_goal s incoming with
    | none =>
      rw [hr] at h
      simp at h
    | some out =>
      rw [hr] at h
      obtain ⟨handle, s2, rest⟩ := out
      simp at h
  | opAccept handle now w =>
    exact accept_goal_statusArray s handle now w arr h
  | opReject handle now w =>
    exact absurd h (fun hh => reject_goal_statusArray s handle now w arr hh)
  | opStartExecuting handle =>
    exact start_executing_goal_statusArray s handle arr h
  | opPublishFeedback handle feedback w =>
    exact absurd h (fun hh => publish_feedback_statusArray s handle feedback w arr hh)
  | opSendResult handle result_status result incoming w =>
    exact send_result_response_statusArray s handle result_status result incoming w arr h
  | opAbortExecuting handle =>
    exact abort_goal_statusArray s handle.inner arr h
  | opAbortAccepted handle =>
    exact abort_goal_statusArray s handle.inner arr h
  | opRespondCancel cancel_handle goals_to_cancel w =>
    exact respond_to_cancel_requests_statusArray s cancel_handle goals_to_cancel w arr h

/-- C1 (counterexample): the claimed transition relation (terminal states
are sinks) fails on the code.  Starting from the empty server: goal 5 is
received, accepted at time (10,0) and started; a cancel request for goal 5
arrives while it is Executing, yielding a CancelHandle listing goal 5;
the goal then reaches the terminal status Succeeded via
`send_result_response`; and `respond_to_cancel_requests` with that handle
moves the Succeeded record to Canceling — a transition the claim's
relation does not contain. -/
theorem claim_goal_status_transitions_counterexample :
    receive_new_goal (G := Unit) (R := Unit) { goals := [], result_requests := [] }
        [(1, { goal_id := 5, goal := () })] =
      some ({ inner := { goal_id := 5 }, req_id := 1 },
        exServer GoalStatusEnum.Unknown none, []) ∧
    (accept_goal (F := Unit) (exServer GoalStatusEnum.Unknown none)
        { inner := { goal_id := 5 }, req_id := 1 } exTime true).2.1 =
      exServer GoalStatusEnum.Accepted (some exTime) ∧
    (start_executing_goal (F := Unit) (exServer GoalStatusEnum.Accepted (some exTime))
        { inner := { goal_id := 5 } }).2.1 =
      exServer GoalStatusEnum.Executing (some exTime) ∧
    receive_cancel_request (exServer GoalStatusEnum.Executing (some exTime)) 2
        { goal_info := { goal_id := 5, stamp := Time.ZERO } } =
      { req_id := 2, goals := [5] } ∧
    (send_result_response (F := Unit) (exServer GoalStatusEnum.Executing (some exTime))
        { inner := { goal_id := 5 } } GoalEndStatus.Succeeded ()
        [(3, { goal_id := 5 })] true).2.1 =
      exServer GoalStatusEnum.Succeeded (some exTime) ∧
    (respond_to_cancel_requests (F := Unit) (exServer GoalStatusEnum.Succeeded (some exTime))
        { req_id := 2, goals := [5] } [5] true).2.1 =
      exServer GoalStatusEnum.Canceling (some exTime) ∧
    specTransition GoalStatusEnum.Succeeded GoalStatusEnum.Canceling = false := by
  decide

/-- C1 (amended): over every API call, a registry record's status either
stays unchanged or moves along `codeTransition`: Unknown → Accepted;
Accepted → Executing; {Accepted, Executing, Canceling} → any terminal
status; and any status — including a terminal one — can move to Canceling,
the latter only for records that are already Canceling or carry a recorded
`accepted_time` (via `respond_to_cancel_requests` on a caller-supplied
goal id). -/
theorem claim_goal_status_transitions {G R F : Type} (op : ServerOp G R F)
    (s : AsyncActionServer G R) (g : GoalId) (ag ag' : AsyncGoal G)
    (h1 : btGet s.goals g = some ag)
    (h2 : btGet (stepState op s).goals g = some ag') :
    (ag'.status = ag.status ∨ codeTransition ag.status ag'.status = true) ∧
    (ag'.status = GoalStatusEnum.Canceling →
      ag.status = GoalStatusEnum.Canceling ∨ ag.accepted_time.isSome = true) := by
  have hsame : ∀ gs2 : List (GoalId × AsyncGoal G), gs2 = s.goals →
      (stepState op s).goals = gs2 → (ag'.status = ag.status ∨
        codeTransition ag.status ag'.status = true) ∧
      (ag'.status = GoalStatusEnum.Canceling →
        ag.status = GoalStatusEnum.Canceling ∨ ag.accepted_time.isSome = true) := by
    intro gs2 hgs hstep
    rw [hstep, hgs, h1] at h2
    have : ag' = ag := Option.some_inj.mp h2.symm
    rw [this]
    exact ⟨Or.inl rfl, fun hc => Or.inl hc⟩
  have hmodne : ∀ gid f, g ≠ gid →
      (stepState op s).goals = btModify gid f s.goals →
      (ag'.status = ag.status ∨ codeTransition ag.status ag'.status = true) ∧
      (ag'.status = GoalStatusEnum.Canceling →
        ag.status = GoalStatusEnum.Canceling ∨ ag.accepted_time.isSome = true) := by
    intro gid f hne hstep
    rw [hstep, btGet_btModify_ne _ _ _ _ hne, h1] at h2
    have : ag' = ag := Option.some_inj.mp h2.symm
    rw [this]
    exact ⟨Or.inl rfl, fun hc => Or.inl hc⟩
  have hmod : ∀ st1 st2 : GoalStatusEnum, ag.status = st1 →
      codeTransition st1 st2 = true →
      st2 ≠ GoalStatusEnum.Canceling →
      (stepState op s).goals = btModify g
        (fun g0 => { g0 with status := st2 }) s.goals →
      (ag'.status = ag.status ∨ codeTransition ag.status ag'.status = true) ∧
      (ag'.status = GoalStatusEnum.Canceling →
        ag.status = GoalStatusEnum.Canceling ∨ ag.accepted_time.isSome = true) := by
    intro st1 st2 hst1 htr hnc hstep
    rw [hstep, btGet_btModify_self, h1, Option.map_some'] at h2
    have hag : ag' = { ag with status := st2 } := Option.some_inj.mp h2.symm
    have hst' : ag'.status = st2 := by
      rw [hag]
    constructor
    · right
      rw [hst', hst1]
      exact htr
    · intro hc
      rw [hst'] at hc
      exact absurd hc hnc
  cases op with
  | opReceiveNewGoal incoming =>
    rw [stepState, runOp] at h2
    cases hr : receive_new_goal s incoming with
    | none =>
      rw [hr] at h2
      rw [h1] at h2
      have : ag' = ag := Option.some_inj.mp h2.symm
      rw [this]
      exact ⟨Or.inl rfl, fun hc => Or.inl hc⟩
    | some out =>
      obtain ⟨handle, s2, rest⟩ := out
      rw [hr] at h2
      obtain ⟨hnone, ⟨gp, hins⟩, _⟩ := receive_new_goal_spec s incoming handle s2 rest hr
      have hne : g ≠ handle.inner.goal_id := by
        intro hgg
        rw [hgg, hnone] at h1
        exact Option.noConfusion h1
      rw [hins, btGet_btInsertNew_ne _ _ _ _ hne, h1] at h2
      have : ag' = ag := Option.some_inj.mp h2.symm
      rw [this]
      exact ⟨Or.inl rfl, fun hc => Or.inl hc⟩
  | opAccept handle now w =>
    rcases accept_goal_goals (F := F) s handle now w with h | ⟨ag0, hget, hst, h⟩
    · exact hsame _ rfl h
    · by_cases hg : g = handle.inner.goal_id
      · have hag0 : ag = ag0 := by
          rw [hg, hget] at h1
          exact (Option.some_inj.mp h1).symm
        have hstat : ag.status = GoalStatusEnum.Unknown := by
          rw [hag0]
          exact hst
        rw [hg] at h2
        have hstep : (stepState (ServerOp.opAccept (F := F) handle now w) s).goals =
            btModify handle.inner.goal_id
              (fun g0 =>
                { g0 with
                  status := GoalStatusEnum.Accepted
                  accepted_time := some now }) s.goals := h
        rw [hstep, btGet_btModify_self, hget, Option.map_some'] at h2
        have hag := Option.some_inj.mp h2.symm
        have hst' : ag'.status = GoalStatusEnum.Accepted := by
          rw [hag]
        constructor
        · right
          rw [hst', hstat]
          rfl
        · intro hc
          rw [hst'] at hc
          exact absurd hc (by simp)
      · exact hmodne _ _ hg h
  | opReject handle now w =>
    refine hsame _ rfl ?_
    rw [stepState, runOp, reject_goal_state]
  | opStartExecuting handle =>
    rcases start_executing_goal_goals (F := F) s handle with h | ⟨ag0, hget, hst, h⟩
    · exact hsame _ rfl h
    · by_cases hg : g = handle.inner.goal_id
      · have hag0 : ag = ag0 := by
          rw [hg, hget] at h1
          exact (Option.some_inj.mp h1).symm
        have hstat : ag.status = GoalStatusEnum.Accepted := by
          rw [hag0]
          exact hst
        refine hmod GoalStatusEnum.Accepted GoalStatusEnum.Executing hstat rfl
          (by simp) ?_
        rw [hg]
        exact h
      · exact hmodne _ _ hg h
  | opPublishFeedback handle feedback w =>
    refine hsame _ rfl ?_
    rw [stepState, runOp, publish_feedback_state]
  | opSendResult handle result_status result incoming w =>
    rcases send_result_response_goals (F := F) s handle result_status result incoming w
      with h | ⟨ag0, hget, hst, h⟩
    · exact hsame _ rfl h
    · by_cases hg : g = handle.inner.goal_id
      · have hag0 : ag = ag0 := by
          rw [hg, hget] at h1
          exact (Option.some_inj.mp h1).symm
        have htr : codeTransition ag.status result_status.toStatusEnum = true := by
          rw [hag0]
          rcases hst with hst | hst | hst <;> rw [hst] <;>
            cases result_status <;> rfl
        refine hmod ag.status result_status.toStatusEnum rfl htr ?_ ?_
        · cases result_status <;> simp [GoalEndStatus.toStatusEnum]
        · rw [hg]
          exact h
      · exact hmodne _ _ hg h
  | opAbortExecuting handle =>
    rcases abort_goal_goals (F := F) s handle.inner with h | ⟨ag0, hget, hst, h⟩
    · exact hsame _ rfl h
    · by_cases hg : g = handle.inner.goal_id
      · have hag0 : ag = ag0 := by
          rw [hg, hget] at h1
          exact (Option.some_inj.mp h1).symm
        have htr : codeTransition ag.status GoalStatusEnum.Aborted = true := by
          rw [hag0]
          rcases hst with hst | hst <;> rw [hst] <;> rfl
        refine hmod ag.status GoalStatusEnum.Aborted rfl htr (by simp) ?_
        rw [hg]
        exact h
      · exact hmodne _ _ hg h
  | opAbortAccepted handle =>
    rcases abort_goal_goals (F := F) s handle.inner with h | ⟨ag0, hget, hst, h⟩
    · exact hsame _ rfl h
    · by_cases hg : g = handle.inner.goal_id
      · have hag0 : ag = ag0 := by
          rw [hg, hget] at h1
          exact (Option.some_inj.mp h1).symm
        have htr : codeTransition ag.status GoalStatusEnum.Aborted = true := by
          rw [hag0]
          rcases hst with hst | hst <;> rw [hst] <;> rfl
        refine hmod ag.status GoalStatusEnum.Aborted rfl htr (by simp) ?_
        rw [hg]
        exact h
      · exact hmodne _ _ hg h
  | opRespondCancel cancel_handle goals_to_cancel w =>
    have hstep : (stepState (ServerOp.opRespondCancel (F := F) (G := G) (R := R)
        cancel_handle goals_to_cancel w) s).goals =
        setCanceling (cancelingGoalInfos s goals_to_cancel) s.goals :=
      (respond_to_cancel_requests_state (F := F) s cancel_handle goals_to_cancel w).1
    rw [hstep, btGet_setCanceling] at h2
    by_cases hmem : g ∈ (cancelingGoalInfos s goals_to_cancel).map GoalInfo.goal_id
    · rw [if_pos hmem, h1, Option.map_some'] at h2
      have hag : ag' = { ag with status := GoalStatusEnum.Canceling } :=
        Option.some_inj.mp h2.symm
      have hst' : ag'.status = GoalStatusEnum.Canceling := by
        rw [hag]
      obtain ⟨agx, t0, hgetx, htx⟩ :=
        mem_map_cancelingGoalInfos s goals_to_cancel g hmem
      have hagx : ag = agx := by
        rw [hgetx] at h1
        exact (Option.some_inj.mp h1).symm
      have htime : ag.accepted_time.isSome = true := by
        rw [hagx, htx]
        rfl
      constructor
      · by_cases hc : ag.status = GoalStatusEnum.Canceling
        · left
          rw [hst', hc]
        · right
          rw [hst']
          cases hs2 : ag.status <;> first | rfl | exact absurd hs2 hc
      · intro _
        exact Or.inr htime
    · rw [if_neg hmem, h1] at h2
      have : ag' = ag := Option.some_inj.mp h2.symm
      rw [this]
      exact ⟨Or.inl rfl, fun hc => Or.inl hc⟩

/-- C1 (witness): the amended transition theorem applied to a concrete
`start_executing_goal` step on the single-goal registry. -/
theorem claim_goal_status_transitions_witness :
    btGet (exServer GoalStatusEnum.Accepted (some exTime)).goals 5 =
      some { status := GoalStatusEnum.Accepted, accepted_time := some exTime, goal := () } ∧
    btGet (stepState (ServerOp.opStartExecuting (F := Unit) (R := Unit)
        { inner := { goal_id := 5 } })
        (exServer GoalStatusEnum.Accepted (some exTime))).goals 5 =
      some { status := GoalStatusEnum.Executing, accepted_time := some exTime, goal := () } ∧
    ((({ status := GoalStatusEnum.Executing, accepted_time := some exTime, goal := () } :
        AsyncGoal Unit).status =
      ({ status := GoalStatusEnum.Accepted, accepted_time := some exTime, goal := () } :
        AsyncGoal Unit).status ∨
      codeTransition GoalStatusEnum.Accepted GoalStatusEnum.Executing = true) ∧
    (({ status := GoalStatusEnum.Executing, accepted_time := some exTime, goal := () } :
        AsyncGoal Unit).status = GoalStatusEnum.Canceling →
      ({ status := GoalStatusEnum.Accepted, accepted_time := some exTime, goal := () } :
        AsyncGoal Unit).status = GoalStatusEnum.Canceling ∨
      (({ status := GoalStatusEnum.Accepted, accepted_time := some exTime, goal := () } :
        AsyncGoal Unit).accepted_time).isSome = true)) :=
  ⟨by decide, by decide,
    claim_goal_status_transitions
      (ServerOp.opStartExecuting (F := Unit) (R := Unit) { inner := { goal_id := 5 } })
      (exServer GoalStatusEnum.Accepted (some exTime)) 5
      { status := GoalStatusEnum.Accepted, accepted_time := some exTime, goal := () }
      { status := GoalStatusEnum.Executing, accepted_time := some exTime, goal := () }
      (by decide) (by decide)⟩

theorem accept_goal_err_frame {G R F : Type} (s : AsyncActionServer G R)
    (handle : NewGoalHandle G) (now : Time) (w : Bool)
    (h : exceptErr (accept_goal (F := F) s handle now w).1 = some GoalError.NoSuchGoal ∨
      exceptErr (accept_goal (F := F) s handle now w).1 = some GoalError.WrongGoalState) :
    (accept_goal (F := F) s handle now w).2.1.goals = s.goals := by
  rw [accept_goal] at h ⊢
  split at h
  next heq => rfl
  next ag heq =>
    by_cases hst : ag.status = GoalStatusEnum.Unknown
    · rw [if_pos hst] at h ⊢
      exfalso
      cases w
      · simp [exceptErr] at h
      · simp [exceptErr] at h
    · rw [if_neg hst] at h ⊢

theorem start_executing_goal_err_frame {G R F : Type} (s : AsyncActionServer G R)
    (handle : AcceptedGoalHandle G)
    (h : exceptErr (start_executing_goal (F := F) s handle).1 = some GoalError.NoSuchGoal ∨
      exceptErr (start_executing_goal (F := F) s handle).1 = some GoalError.WrongGoalState) :
    (start_executing_goal (F := F) s handle).2.1.goals = s.goals := by
  rw [start_executing_goal] at h ⊢
  split at h
  next heq => rfl
  next ag heq =>
    by_cases hst : ag.status = GoalStatusEnum.Accepted
    · rw [if_pos hst] at h ⊢
      exfalso
      simp [exceptErr] at h
    · rw [if_neg hst] at h ⊢

theorem abort_goal_err_frame {G R F : Type} (s : AsyncActionServer G R)
    (handle : InnerGoalHandle G)
    (h : exceptErr (abort_goal (F := F) s handle).1 = some GoalError.NoSuchGoal ∨
      exceptErr (abort_goal (F := F) s handle).1 = some GoalError.WrongGoalState) :
    (abort_goal (F := F) s handle).2.1.goals = s.goals := by
  rw [abort_goal] at h ⊢
  split at h
  next heq => rfl
  next ag heq =>
    by_cases hst : ag.status = GoalStatusEnum.Accepted ∨
        ag.status = GoalStatusEnum.Executing
    · rw [if_pos hst] at h ⊢
      exfalso
      simp [exceptErr] at h
    · rw [if_neg hst] at h ⊢

theorem send_result_response_err_frame {G R F : Type} (s : AsyncActionServer G R)
    (handle : ExecutingGoalHandle G) (result_status : GoalEndStatus) (result : R)
    (incoming : List (RmwRequestId × GetResultRequest)) (w : Bool)
    (h : srrErr (send_result_response (F := F) s handle result_status result incoming w).1
        = some GoalError.NoSuchGoal ∨
      srrErr (send_result_response (F := F) s handle result_status result incoming w).1
        = some GoalError.WrongGoalState) :
    (send_result_response (F := F) s handle result_status result incoming w).2.1.goals
      = s.goals := by
  rw [send_result_response] at h ⊢
  split at h
  next buf heq => rfl
  next req_id buf heq =>
    split at h
    next heq2 => rfl
    next ag heq2 =>
      by_cases hst : ag.status = GoalStatusEnum.Accepted ∨
          ag.status = GoalStatusEnum.Executing ∨ ag.status = GoalStatusEnum.Canceling
      · rw [if_pos hst] at h ⊢
        exfalso
        cases w
        · simp [srrErr] at h
        · simp [srrErr] at h
      · rw [if_neg hst] at h ⊢

/-- C7: whenever an `AsyncActionServer` operation surfaces `NoSuchGoal` or
`WrongGoalState`, the goals registry is exactly as it was before the call:
no record is inserted or removed, and no status or acceptance time
changes.  (`receive_new_goal` and `respond_to_cancel_requests` never
surface these errors, so the property holds for them vacuously.) -/
theorem claim_state_error_frame {G R F : Type} (op : ServerOp G R F)
    (s : AsyncActionServer G R)
    (h : stepErr op s = some GoalError.NoSuchGoal ∨
      stepErr op s = some GoalError.WrongGoalState) :
    (stepState op s).goals = s.goals := by
  cases op with
  | opReceiveNewGoal incoming =>
    rw [stepErr, runOp] at h
    cases hr : receive_new_goal s incoming with
    | none =>
      rw [hr] at h
      simp at h
    | some out =>
      obtain ⟨handle, s2, rest⟩ := out
      rw [hr] at h
      simp at h
  | opAccept handle now w =>
    exact accept_goal_err_frame s handle now w h
  | opReject handle now w =>
    rw [stepState, runOp, reject_goal_state]
  | opStartExecuting handle =>
    exact start_executing_goal_err_frame s handle h
  | opPublishFeedback handle feedback w =>
    rw [stepState, runOp, publish_feedback_state]
  | opSendResult handle result_status result incoming w =>
    exact send_result_response_err_frame s handle result_status result incoming w h
  | opAbortExecuting handle =>
    exact abort_goal_err_frame s handle.inner h
  | opAbortAccepted handle =>
    exact abort_goal_err_frame s handle.inner h
  | opRespondCancel cancel_handle goals_to_cancel w =>
    exfalso
    rw [stepErr, runOp, respond_to_cancel_requests] at h
    cases w
    · simp [exceptErr] at h
    · simp [exceptErr] at h

/-- C7 (witness): the frame theorem applied to `accept_goal` on a registry
whose only goal is already Succeeded, which fails with `WrongGoalState`. -/
theorem claim_state_error_frame_witness :
    (stepErr (ServerOp.opAccept (F := Unit) (R := Unit)
        { inner := { goal_id := 5 }, req_id := 1 } exTime true)
        (exServer GoalStatusEnum.Succeeded none) = some GoalError.NoSuchGoal ∨
      stepErr (ServerOp.opAccept (F := Unit) (R := Unit)
        { inner := { goal_id := 5 }, req_id := 1 } exTime true)
        (exServer GoalStatusEnum.Succeeded none) = some GoalError.WrongGoalState) ∧
    (stepState (ServerOp.opAccept (F := Unit) (R := Unit)
        { inner := { goal_id := 5 }, req_id := 1 } exTime true)
        (exServer GoalStatusEnum.Succeeded none)).goals =
      (exServer GoalStatusEnum.Succeeded none).goals :=
  ⟨Or.inr (by decide), claim_state_error_frame _ _ (Or.inr (by decide))⟩

/-- C3: every `GoalStatusArray` any operation writes is exactly
`publish_statuses` of the post-call registry; that array has exactly one
entry per registry record — pairing the record's key with its current
status, in registry order — and, the registry being sorted (the `BTreeMap`
invariant, preserved by every operation), its entries appear in strictly
ascending `GoalId` order. -/
theorem claim_status_array_complete {G R F : Type} (op : ServerOp G R F)
    (s : AsyncActionServer G R) (hs : btSorted s.goals) :
    (∀ arr, Event.statusArray arr ∈ stepEvents op s →
      arr = publish_statuses (stepState op s).goals) ∧
    (publish_statuses (stepState op s).goals).status_list.map
        (fun e => (e.goal_info.goal_id, e.status)) =
      (stepState op s).goals.map (fun kv => (kv.1, kv.2.status)) ∧
    (publish_statuses (stepState op s).goals).status_list.length =
      (stepState op s).goals.length ∧
    ((publish_statuses (stepState op s).goals).status_list.map
        (fun e => e.goal_info.goal_id)).Pairwise (fun a b => a < b) := by
  refine ⟨fun arr h => stepEvents_statusArray op s arr h, ?_, ?_, ?_⟩
  · rw [publish_statuses, List.map_map]
    rfl
  · rw [publish_statuses]
    simp
  · have hkeys : (publish_statuses (stepState op s).goals).status_list.map
        (fun e => e.goal_info.goal_id) = btKeys (stepState op s).goals := by
      rw [publish_statuses, List.map_map]
      rfl
    rw [hkeys]
    exact stepState_sorted op s hs

/-- C3 (witness): the status-array theorem applied to a concrete
`start_executing_goal` step on the sorted single-goal registry. -/
theorem claim_status_array_complete_witness :
    btSorted (exServer GoalStatusEnum.Accepted (some exTime)).goals ∧
    ((∀ arr, Event.statusArray arr ∈ stepEvents
        (ServerOp.opStartExecuting (F := Unit) (R := Unit) { inner := { goal_id := 5 } })
        (exServer GoalStatusEnum.Accepted (some exTime)) →
      arr = publish_statuses (stepState
        (ServerOp.opStartExecuting (F := Unit) (R := Unit) { inner := { goal_id := 5 } })
        (exServer GoalStatusEnum.Accepted (some exTime))).goals) ∧
    (publish_statuses (stepState
        (ServerOp.opStartExecuting (F := Unit) (R := Unit) { inner := { goal_id := 5 } })
        (exServer GoalStatusEnum.Accepted (some exTime))).goals).status_list.map
        (fun e => (e.goal_info.goal_id, e.status)) =
      (stepState
        (ServerOp.opStartExecuting (F := Unit) (R := Unit) { inner := { goal_id := 5 } })
        (exServer GoalStatusEnum.Accepted (some exTime))).goals.map
        (fun kv => (kv.1, kv.2.status)) ∧
    (publish_statuses (stepState
        (ServerOp.opStartExecuting (F := Unit) (R := Unit) { inner := { goal_id := 5 } })
        (exServer GoalStatusEnum.Accepted (some exTime))).goals).status_list.length =
      (stepState
        (ServerOp.opStartExecuting (F := Unit) (R := Unit) { inner := { goal_id := 5 } })
        (exServer GoalStatusEnum.Accepted (some exTime))).goals.length ∧
    ((publish_statuses (stepState
        (ServerOp.opStartExecuting (F := Unit) (R := Unit) { inner := { goal_id := 5 } })
        (exServer GoalStatusEnum.Accepted (some exTime))).goals).status_list.map
        (fun e => e.goal_info.goal_id)).Pairwise (fun a b => a < b)) :=
  ⟨by unfold btSorted; decide,
    claim_status_array_complete
      (ServerOp.opStartExecuting (F := Unit) (R := Unit) { inner := { goal_id := 5 } })
      (exServer GoalStatusEnum.Accepted (some exTime)) (by unfold btSorted; decide)⟩

/-- C10: the status array built by `publish_statuses` has an entry for
every registry record, including never-accepted ones (status `Unknown`,
such as rejected goals whose records remain); a record whose
`accepted_time` is `None` is published with stamp `Time::ZERO` and its
current status.  So once any broadcast happens, a rejected goal still
appears with status `Unknown` and stamp zero. -/
theorem claim_status_array_unknown_entries {G : Type}
    (goals : List (GoalId × AsyncGoal G)) (g : GoalId) (ag : AsyncGoal G)
    (hmem : (g, ag) ∈ goals) (htime : ag.accepted_time = none) :
    ({ goal_info := { goal_id := g, stamp := Time.ZERO }, status := ag.status } :
      GoalStatus) ∈ (publish_statuses goals).status_list := by
  rw [publish_statuses]
  simp only [List.mem_map]
  refine ⟨(g, ag), hmem, ?_⟩
  rw [htime]
  rfl

/-- C10 (witness): the membership theorem applied to a single-record
registry holding a never-accepted (rejected) goal. -/
theorem claim_status_array_unknown_entries_witness :
    ((5 : GoalId), ({ status := GoalStatusEnum.Unknown, accepted_time := none, goal := () } : AsyncGoal Unit)) ∈ (exServer GoalStatusEnum.Unknown none).goals ∧
    ({ goal_info := { goal_id := 5, stamp := Time.ZERO },
        status := GoalStatusEnum.Unknown } : GoalStatus) ∈
      (publish_statuses (exServer GoalStatusEnum.Unknown none).goals).status_list :=
  ⟨by decide,
    claim_status_array_unknown_entries (exServer GoalStatusEnum.Unknown none).goals 5
      { status := GoalStatusEnum.Unknown, accepted_time := none, goal := () }
      (by decide) (by decide)⟩

/-- C9: `reject_goal` on a goal whose status is `Unknown` sends exactly
one message — `SendGoalResponse{accepted: false, stamp: now}` on the
handle's saved request id — and nothing else: the whole server state
(goals registry and result-request buffer) is returned unchanged, so the
record is neither removed nor modified, and no status array is published;
an absent goal yields `NoSuchGoal` and any other status
`WrongGoalState`, both also leaving the state unchanged and writing
nothing. -/
theorem claim_reject_goal_spec {G R F : Type} (s : AsyncActionServer G R)
    (handle : NewGoalHandle G) (now : Time) :
    (btGet s.goals handle.inner.goal_id = none →
      reject_goal (F := F) s handle now true =
        (Except.error GoalError.NoSuchGoal, s, [])) ∧
    (∀ ag, btGet s.goals handle.inner.goal_id = some ag →
      ag.status = GoalStatusEnum.Unknown →
      reject_goal (F := F) s handle now true =
        (Except.ok (), s,
          [Event.goalResponse handle.req_id { accepted := false, stamp := now }])) ∧
    (∀ ag, btGet s.goals handle.inner.goal_id = some ag →
      ag.status ≠ GoalStatusEnum.Unknown →
      reject_goal (F := F) s handle now true =
        (Except.error GoalError.WrongGoalState, s, [])) := by
  refine ⟨?_, ?_, ?_⟩
  · intro hnone
    rw [reject_goal, hnone]
  · intro ag hget hst
    rw [reject_goal, hget]
    simp only [hst, if_true]
  · intro ag hget hst
    rw [reject_goal, hget]
    simp [hst]

/-- C9 (witness): the rejection theorem applied to the single-goal
registry whose record is still `Unknown`. -/
theorem claim_reject_goal_spec_witness :
    btGet (exServer GoalStatusEnum.Unknown none).goals 5 =
      some { status := GoalStatusEnum.Unknown, accepted_time := none, goal := () } ∧
    ({ status := GoalStatusEnum.Unknown, accepted_time := none, goal := () } : AsyncGoal Unit).status = GoalStatusEnum.Unknown ∧
    reject_goal (F := Unit) (exServer GoalStatusEnum.Unknown none)
        { inner := { goal_id := 5 }, req_id := 1 } exTime true =
      (Except.ok (), exServer GoalStatusEnum.Unknown none,
        [Event.goalResponse 1 { accepted := false, stamp := exTime }]) :=
  ⟨by decide, by decide,
    (claim_reject_goal_spec (exServer GoalStatusEnum.Unknown none)
      { inner := { goal_id := 5 }, req_id := 1 } exTime).2.1
      { status := GoalStatusEnum.Unknown, accepted_time := none, goal := () }
      (by decide) (by decide)⟩

/-- C4: over any incoming goal-request stream, `receive_new_goal` hands
out handles with pairwise distinct goal ids; every returned handle's id
was not previously a registry key; the registry keys stay strictly sorted
(hence at most one record per goal id ever exists); and the final key set
is exactly the initial keys together with the ids that arrived on the
wire — a duplicate request inserts nothing. -/
theorem claim_unique_goal_ids {G R : Type} (s : AsyncActionServer G R)
    (reqs : List (RmwRequestId × SendGoalRequest G)) (hs : btSorted s.goals) :
    ((receiveAllGoals s reqs).1.map (fun h => h.inner.goal_id)).Nodup ∧
    (∀ h2, h2 ∈ (receiveAllGoals s reqs).1 →
      h2.inner.goal_id ∉ btKeys s.goals) ∧
    btSorted (receiveAllGoals s reqs).2.goals ∧
    (∀ x, x ∈ btKeys (receiveAllGoals s reqs).2.goals ↔
      x ∈ btKeys s.goals ∨ ∃ p ∈ reqs, p.2.goal_id = x) := by
  induction reqs generalizing s with
  | nil =>
    refine ⟨by simp [receiveAllGoals], by simp [receiveAllGoals], hs, ?_⟩
    intro x
    simp [receiveAllGoals]
  | cons q rest ih =>
    obtain ⟨rid, req⟩ := q
    by_cases hdup : (btGet s.goals req.goal_id).isSome = true
    · rw [receiveAllGoals, if_pos hdup]
      obtain ⟨ih1, ih2, ih3, ih4⟩ := ih s hs
      refine ⟨ih1, ih2, ih3, ?_⟩
      intro x
      rw [ih4 x]
      constructor
      · rintro (hx | ⟨p, hp, he⟩)
        · exact Or.inl hx
        · exact Or.inr ⟨p, List.mem_cons_of_mem _ hp, he⟩
      · rintro (hx | ⟨p, hp, he⟩)
        · exact Or.inl hx
        · rcases List.mem_cons.mp hp with rfl | hp2
          · left
            rw [← he]
            exact (btGet_isSome_iff_mem s.goals req.goal_id).mp hdup
          · exact Or.inr ⟨p, hp2, he⟩
    · rw [receiveAllGoals, if_neg hdup]
      have hfresh : req.goal_id ∉ btKeys s.goals := by
        intro hmem
        exact hdup ((btGet_isSome_iff_mem s.goals req.goal_id).mpr hmem)
      have hs1 : btSorted (insertNewGoal s req.goal_id req.goal).goals :=
        btSorted_btInsertNew _ _ _ hs hfresh
      have hkeys1 : ∀ x, x ∈ btKeys (insertNewGoal s req.goal_id req.goal).goals ↔
          x = req.goal_id ∨ x ∈ btKeys s.goals :=
        btKeys_btInsertNew_mem _ _ _
      obtain ⟨ih1, ih2, ih3, ih4⟩ := ih (insertNewGoal s req.goal_id req.goal) hs1
      refine ⟨?_, ?_, ih3, ?_⟩
      · simp only [List.map_cons, List.nodup_cons]
        refine ⟨?_, ih1⟩
        intro hmem
        obtain ⟨h2, hh2, hid⟩ := List.mem_map.mp hmem
        have := ih2 h2 hh2
        rw [hid] at this
        exact this ((hkeys1 req.goal_id).mpr (Or.inl rfl))
      · intro h2 hh2
        rcases List.mem_cons.mp hh2 with rfl | hh2
        · exact hfresh
        · intro hmem
          exact ih2 h2 hh2 ((hkeys1 h2.inner.goal_id).mpr (Or.inr hmem))
      · intro x
        rw [ih4 x]
        constructor
        · rintro (hx | ⟨p, hp, he⟩)
          · rcases (hkeys1 x).mp hx with rfl | hx2
            · exact Or.inr ⟨(rid, req), List.mem_cons_self _ _, rfl⟩
            · exact Or.inl hx2
          · exact Or.inr ⟨p, List.mem_cons_of_mem _ hp, he⟩
        · rintro (hx | ⟨p, hp, he⟩)
          · exact Or.inl ((hkeys1 x).mpr (Or.inr hx))
          · rcases List.mem_cons.mp hp with rfl | hp2
            · exact Or.inl ((hkeys1 x).mpr (Or.inl he.symm))
            · exact Or.inr ⟨p, hp2, he⟩

/-- C4 (witness): the uniqueness theorem applied to a duplicate-bearing
concrete stream [(1, goal 5), (2, goal 5 again), (3, goal 7)] on the
empty server. -/
theorem claim_unique_goal_ids_witness :
    btSorted ({ goals := [], result_requests := [] } :
      AsyncActionServer Unit Unit).goals ∧
    (((receiveAllGoals ({ goals := [], result_requests := [] } :
        AsyncActionServer Unit Unit)
        [(1, { goal_id := 5, goal := () }), (2, { goal_id := 5, goal := () }),
          (3, { goal_id := 7, goal := () })]).1.map
        (fun h => h.inner.goal_id)).Nodup ∧
    (∀ h2, h2 ∈ (receiveAllGoals ({ goals := [], result_requests := [] } :
        AsyncActionServer Unit Unit)
        [(1, { goal_id := 5, goal := () }), (2, { goal_id := 5, goal := () }),
          (3, { goal_id := 7, goal := () })]).1 →
      h2.inner.goal_id ∉ btKeys ({ goals := [], result_requests := [] } :
        AsyncActionServer Unit Unit).goals) ∧
    btSorted (receiveAllGoals ({ goals := [], result_requests := [] } :
        AsyncActionServer Unit Unit)
        [(1, { goal_id := 5, goal := () }), (2, { goal_id := 5, goal := () }),
          (3, { goal_id := 7, goal := () })]).2.goals ∧
    (∀ x, x ∈ btKeys (receiveAllGoals ({ goals := [], result_requests := [] } :
        AsyncActionServer Unit Unit)
        [(1, { goal_id := 5, goal := () }), (2, { goal_id := 5, goal := () }),
          (3, { goal_id := 7, goal := () })]).2.goals ↔
      x ∈ btKeys ({ goals := [], result_requests := [] } :
        AsyncActionServer Unit Unit).goals ∨
      ∃ p ∈ [((1 : RmwRequestId), ({ goal_id := 5, goal := () } :
          SendGoalRequest Unit)), (2, { goal_id := 5, goal := () }),
          (3, { goal_id := 7, goal := () })], p.2.goal_id = x)) :=
  ⟨by unfold btSorted; decide,
    claim_unique_goal_ids { goals := [], result_requests := [] }
      [(1, { goal_id := 5, goal := () }), (2, { goal_id := 5, goal := () }),
        (3, { goal_id := 7, goal := () })] (by unfold btSorted; decide)⟩

theorem timeInv_exServer (st : GoalStatusEnum) : timeInv (exServer st none) := by
  intro g ag hget _
  simp only [exServer, btGet] at hget
  split at hget
  · rw [← Option.some_inj.mp hget]
  · exact Option.noConfusion hget

/-- C6: `accept_goal` succeeds exactly on a registered `Unknown` goal: on
success it returns the accepted handle, sets that record's status to
`Accepted` and its `accepted_time` to `Some now` (all other records and
the result-request buffer untouched), and writes first the status array
and then `SendGoalResponse{accepted: true, stamp: now}` on the handle's
saved request id, in that order; an absent goal yields `NoSuchGoal` and
any other status `WrongGoalState`, both leaving the state unchanged; and
— `Unknown` records never carrying an acceptance time (`timeInv`) — a set
`accepted_time` survives every subsequent operation unchanged, so it is
set at most once and never updated. -/
theorem claim_accept_goal_spec {G R F : Type} (s : AsyncActionServer G R)
    (handle : NewGoalHandle G) (now : Time) (hinv : timeInv s) :
    (btGet s.goals handle.inner.goal_id = none →
      accept_goal (F := F) s handle now true =
        (Except.error GoalError.NoSuchGoal, s, [])) ∧
    (∀ ag, btGet s.goals handle.inner.goal_id = some ag →
      ag.status ≠ GoalStatusEnum.Unknown →
      accept_goal (F := F) s handle now true =
        (Except.error GoalError.WrongGoalState, s, [])) ∧
    (∀ ag, btGet s.goals handle.inner.goal_id = some ag →
      ag.status = GoalStatusEnum.Unknown →
      (accept_goal (F := F) s handle now true).1 =
        Except.ok { inner := handle.inner } ∧
      btGet (accept_goal (F := F) s handle now true).2.1.goals
          handle.inner.goal_id =
        some { ag with status := GoalStatusEnum.Accepted, accepted_time := some now } ∧
      (∀ g2, g2 ≠ handle.inner.goal_id →
        btGet (accept_goal (F := F) s handle now true).2.1.goals g2 =
          btGet s.goals g2) ∧
      (accept_goal (F := F) s handle now true).2.1.result_requests =
        s.result_requests ∧
      (accept_goal (F := F) s handle now true).2.2 =
        [ Event.statusArray (publish_statuses
            (accept_goal (F := F) s handle now true).2.1.goals)
        , Event.goalResponse handle.req_id { accepted := true, stamp := now } ]) ∧
    (∀ (op : ServerOp G R F) g2 ag2 t0, btGet s.goals g2 = some ag2 →
      ag2.accepted_time = some t0 →
      ∃ ag3, btGet (stepState op s).goals g2 = some ag3 ∧
        ag3.accepted_time = some t0) := by
  refine ⟨?_, ?_, ?_, ?_⟩
  · intro hnone
    rw [accept_goal, hnone]
  · intro ag hget hst
    rw [accept_goal, hget]
    simp [hst]
  · intro ag hget hst
    rw [accept_goal, hget]
    simp only [hst, eq_self_iff_true, if_true]
    refine ⟨by trivial, ?_, ?_, by trivial, by trivial⟩
    · rw [btGet_btModify_self, hget, Option.map_some']
    · intro g2 hne
      exact btGet_btModify_ne _ _ _ _ hne
  · intro op g2 ag2 t0 hget2 ht2
    exact stepState_time_preserved op s hinv g2 ag2 t0 hget2 ht2

/-- C6 (witness): the acceptance theorem applied to the single-goal
registry whose record is `Unknown`. -/
theorem claim_accept_goal_spec_witness :
    timeInv (exServer GoalStatusEnum.Unknown none) ∧
    btGet (exServer GoalStatusEnum.Unknown none).goals 5 =
      some { status := GoalStatusEnum.Unknown, accepted_time := none, goal := () } ∧
    (accept_goal (F := Unit) (exServer GoalStatusEnum.Unknown none)
        { inner := { goal_id := 5 }, req_id := 1 } exTime true).1 =
      Except.ok { inner := { goal_id := 5 } } ∧
    btGet (accept_goal (F := Unit) (exServer GoalStatusEnum.Unknown none)
        { inner := { goal_id := 5 }, req_id := 1 } exTime true).2.1.goals 5 =
      some { status := GoalStatusEnum.Accepted, accepted_time := some exTime, goal := () } :=
  ⟨timeInv_exServer GoalStatusEnum.Unknown, by decide,
    ((claim_accept_goal_spec (exServer GoalStatusEnum.Unknown none)
        { inner := { goal_id := 5 }, req_id := 1 } exTime
        (timeInv_exServer GoalStatusEnum.Unknown)).2.2.1
      { status := GoalStatusEnum.Unknown, accepted_time := none, goal := () }
      (by decide) (by decide)).1,
    ((claim_accept_goal_spec (exServer GoalStatusEnum.Unknown none)
        { inner := { goal_id := 5 }, req_id := 1 } exTime
        (timeInv_exServer GoalStatusEnum.Unknown)).2.2.1
      { status := GoalStatusEnum.Unknown, accepted_time := none, goal := () }
      (by decide) (by decide)).2.1⟩

/-- C8: when the DDS write that follows a successful registry transition
fails — the goal-response write in `accept_goal`, or the result write in
`send_result_response` — the error surfaces as `DDSWriteError` while the
registry keeps the post-transition state: the new status (and, for
`accept_goal`, the newly set `accepted_time`) is not rolled back. -/
theorem claim_write_failure_keeps_transition {G R F : Type}
    (s : AsyncActionServer G R) (handle : NewGoalHandle G)
    (handle2 : ExecutingGoalHandle G) (now : Time)
    (result_status : GoalEndStatus) (result : R)
    (incoming : List (RmwRequestId × GetResultRequest)) :
    (∀ ag, btGet s.goals handle.inner.goal_id = some ag →
      ag.status = GoalStatusEnum.Unknown →
      (accept_goal (F := F) s handle now false).1 =
        Except.error GoalError.DDSWriteError ∧
      btGet (accept_goal (F := F) s handle now false).2.1.goals
          handle.inner.goal_id =
        some
          { ag with
            status := GoalStatusEnum.Accepted
            accepted_time := some now }) ∧
    (∀ ag req_id, btGet s.goals handle2.inner.goal_id = some ag →
      (ag.status = GoalStatusEnum.Accepted ∨ ag.status = GoalStatusEnum.Executing ∨
        ag.status = GoalStatusEnum.Canceling) →
      btGet s.result_requests handle2.inner.goal_id = some req_id →
      (send_result_response (F := F) s handle2 result_status result incoming false).1 =
        some (Except.error GoalError.DDSWriteError) ∧
      btGet (send_result_response (F := F) s handle2 result_status result
          incoming false).2.1.goals handle2.inner.goal_id =
        some { ag with status := result_status.toStatusEnum }) := by
  constructor
  · intro ag hget hst
    rw [accept_goal, hget]
    simp only [hst, eq_self_iff_true, if_true, Bool.false_eq_true, if_false]
    refine ⟨by trivial, ?_⟩
    rw [btGet_btModify_self, hget, Option.map_some']
  · intro ag req_id hget hst hbuf
    rw [send_result_response]
    simp only [hbuf, hget]
    rcases hst with hst | hst | hst <;>
      simp only [hst, eq_self_iff_true, true_or, or_true, if_true,
        Bool.false_eq_true, if_false] <;>
      refine ⟨by trivial, ?_⟩ <;>
      rw [btGet_btModify_self, hget, Option.map_some']

/-- C8 (witness): the write-failure theorem applied to a concrete
acceptance (goal 5 Unknown) and a concrete result send (goal 5 Executing
with its result request already buffered under request id 3). -/
theorem claim_write_failure_keeps_transition_witness :
    (btGet (exServer GoalStatusEnum.Unknown none).goals 5 =
      some { status := GoalStatusEnum.Unknown, accepted_time := none, goal := () } ∧
    (accept_goal (F := Unit) (exServer GoalStatusEnum.Unknown none)
        { inner := { goal_id := 5 }, req_id := 1 } exTime false).1 =
      Except.error GoalError.DDSWriteError ∧
    btGet (accept_goal (F := Unit) (exServer GoalStatusEnum.Unknown none)
        { inner := { goal_id := 5 }, req_id := 1 } exTime false).2.1.goals 5 =
      some { status := GoalStatusEnum.Accepted, accepted_time := some exTime, goal := () }) ∧
    ((send_result_response (F := Unit)
        { goals := [(5, AsyncGoal.mk GoalStatusEnum.Executing (some exTime) ())]
          result_requests := [(5, 3)] }
        { inner := { goal_id := 5 } } GoalEndStatus.Succeeded () [] false).1 =
      some (Except.error GoalError.DDSWriteError) ∧
    btGet (send_result_response (F := Unit)
        { goals := [(5, AsyncGoal.mk GoalStatusEnum.Executing (some exTime) ())]
          result_requests := [(5, 3)] }
        { inner := { goal_id := 5 } } GoalEndStatus.Succeeded () [] false).2.1.goals 5 =
      some { status := GoalStatusEnum.Succeeded, accepted_time := some exTime, goal := () }) :=
  ⟨⟨by decide,
    (claim_write_failure_keeps_transition (exServer GoalStatusEnum.Unknown none)
        { inner := { goal_id := 5 }, req_id := 1 } { inner := { goal_id := 5 } }
        exTime GoalEndStatus.Succeeded () []).1
      { status := GoalStatusEnum.Unknown, accepted_time := none, goal := () }
      (by decide) (by decide)⟩,
    (claim_write_failure_keeps_transition
        { goals := [(5, AsyncGoal.mk GoalStatusEnum.Executing (some exTime) ())]
          result_requests := [(5, 3)] }
        { inner := { goal_id := 5 }, req_id := 1 } { inner := { goal_id := 5 } }
        exTime GoalEndStatus.Succeeded () []).2
      { status := GoalStatusEnum.Executing, accepted_time := some exTime, goal := () } 3
      (by decide) (Or.inr (Or.inl (by decide))) (by decide)⟩

theorem cancelGoalFilter_iff {G : Type} (gi : GoalInfo) (g : GoalId)
    (ag : AsyncGoal G) :
    cancelGoalFilter gi g ag = true ↔ specCancelPredicate gi g ag := by
  rw [cancelGoalFilter, specCancelPredicate]
  by_cases h1 : gi.goal_id = GoalId.ZERO ∧ gi.stamp = Time.ZERO
  · rw [if_pos h1, if_pos h1]
    simp
  · rw [if_neg h1, if_neg h1]
    by_cases h2 : gi.goal_id = GoalId.ZERO
    · rw [if_pos h2, if_pos h2]
      cases ht : ag.accepted_time with
      | none =>
        constructor
        · intro h
          exact Bool.noConfusion h
        · rintro ⟨t0, ht0, _⟩
          exact Option.noConfusion ht0
      | some t0 =>
        constructor
        · intro h
          exact ⟨t0, rfl, h⟩
        · rintro ⟨t1, ht1, hlt⟩
          obtain rfl := Option.some_inj.mp ht1
          exact hlt
    · rw [if_neg h2, if_neg h2]
      by_cases h3 : gi.stamp = Time.ZERO
      · rw [if_pos h3, if_pos h3]
        rw [decide_eq_true_eq]
        exact eq_comm
      · rw [if_neg h3, if_neg h3]
        cases ht : ag.accepted_time with
        | none =>
          simp only [Option.map_none', Option.getD_none, Bool.or_false,
            decide_eq_true_eq]
          constructor
          · intro h
            exact Or.inl h.symm
          · rintro (h | ⟨t0, ht0, _⟩)
            · exact h.symm
            · exact Option.noConfusion ht0
        | some t0 =>
          simp only [Option.map_some', Option.getD_some, Bool.or_eq_true,
            decide_eq_true_eq]
          constructor
          · rintro (h | h)
            · exact Or.inl h.symm
            · exact Or.inr ⟨t0, rfl, h⟩
          · rintro (h | ⟨t1, ht1, hlt⟩)
            · exact Or.inl h.symm
            · obtain rfl := Option.some_inj.mp ht1
              exact Or.inr hlt

/-- C2: for every processed cancel request, the returned `CancelHandle`
carries the originating request id and exactly the registry goals whose
status is `Accepted` or `Executing` and that satisfy the request's
(goal_id, stamp) quadrant predicate: both wildcards zero → every eligible
goal; goal id zero and stamp `t` nonzero → `accepted_time` set and
strictly before `t`; goal id nonzero and stamp zero → that goal id; both
nonzero → that goal id or `accepted_time` strictly before `t`.  A goal
accepted exactly at `t` is not matched, and terminal or `Canceling` goals
are never included. -/
theorem claim_cancel_predicate {G R : Type} (s : AsyncActionServer G R)
    (req_id : RmwRequestId) (req : CancelGoalRequest) (hs : btSorted s.goals) :
    (receive_cancel_request s req_id req).req_id = req_id ∧
    (receive_cancel_request s req_id req).goals.Nodup ∧
    (∀ g, g ∈ (receive_cancel_request s req_id req).goals ↔
      ∃ ag, btGet s.goals g = some ag ∧
        (ag.status = GoalStatusEnum.Accepted ∨ ag.status = GoalStatusEnum.Executing) ∧
        specCancelPredicate req.goal_info g ag) := by
  have hnodup : (btKeys s.goals).Nodup := btSorted_nodup _ hs
  refine ⟨rfl, ?_, ?_⟩
  · rw [receive_cancel_request]
    have hsub : (((s.goals.filter (fun kv =>
        kv.2.status = GoalStatusEnum.Executing ∨
          kv.2.status = GoalStatusEnum.Accepted)).filter
        (fun kv => cancelGoalFilter req.goal_info kv.1 kv.2)).map Prod.fst).Sublist
        (s.goals.map Prod.fst) :=
      ((List.filter_sublist _).trans (List.filter_sublist _)).map Prod.fst
    exact hnodup.sublist hsub
  · intro g
    rw [receive_cancel_request]
    simp only [List.mem_map]
    constructor
    · rintro ⟨⟨k, ag⟩, hp, rfl⟩
      obtain ⟨hp1, hf2⟩ := List.mem_filter.mp hp
      obtain ⟨hpmem, hf1⟩ := List.mem_filter.mp hp1
      have helig := of_decide_eq_true hf1
      refine ⟨ag, mem_btGet_of_nodup _ _ _ hnodup hpmem, ?_,
        (cancelGoalFilter_iff _ _ _).mp hf2⟩
      tauto
    · rintro ⟨ag, hget, helig, hpred⟩
      refine ⟨(g, ag), ?_, rfl⟩
      refine List.mem_filter.mpr ⟨List.mem_filter.mpr
        ⟨btGet_some_mem _ _ _ hget, decide_eq_true ?_⟩,
        (cancelGoalFilter_iff _ _ _).mpr hpred⟩
      tauto

/-- C2 (witness): the cancel-predicate theorem applied to a concrete
cancel-all-accepted-before request (goal id zero, stamp (10,0)) on the
two-goal registry `exServer2`. -/
theorem claim_cancel_predicate_witness :
    btSorted exServer2.goals ∧
    ((receive_cancel_request exServer2 2
        { goal_info := { goal_id := GoalId.ZERO, stamp := exTime } }).req_id = 2 ∧
    (receive_cancel_request exServer2 2
        { goal_info := { goal_id := GoalId.ZERO, stamp := exTime } }).goals.Nodup ∧
    (∀ g, g ∈ (receive_cancel_request exServer2 2
        { goal_info := { goal_id := GoalId.ZERO, stamp := exTime } }).goals ↔
      ∃ ag, btGet exServer2.goals g = some ag ∧
        (ag.status = GoalStatusEnum.Accepted ∨ ag.status = GoalStatusEnum.Executing) ∧
        specCancelPredicate { goal_id := GoalId.ZERO, stamp := exTime } g ag)) :=
  ⟨by unfold btSorted; decide,
    claim_cancel_predicate exServer2 2
      { goal_info := { goal_id := GoalId.ZERO, stamp := exTime } }
      (by unfold btSorted; decide)⟩

theorem srr_result_requests {G R F : Type} (s : AsyncActionServer G R)
    (handle : ExecutingGoalHandle G) (result_status : GoalEndStatus) (result : R)
    (incoming : List (RmwRequestId × GetResultRequest)) (w : Bool) :
    (send_result_response (F := F) s handle result_status result
        incoming w).2.1.result_requests =
      (match btGet s.result_requests handle.inner.goal_id with
        | some _ => s.result_requests
        | none =>
          (drainResultRequests handle.inner.goal_id incoming s.result_requests).2) := by
  cases hb : btGet s.result_requests handle.inner.goal_id with
  | some rid =>
    rw [send_result_response]
    simp only [hb]
    split
    next => rfl
    next ag heq =>
      split
      next helig =>
        cases w
        · rfl
        · rfl
      next => rfl
  | none =>
    rw [send_result_response]
    simp only [hb]
    split
    next buf heq =>
      rw [heq]
    next rid buf heq =>
      split
      next =>
        rw [heq]
      next ag heq2 =>
        split
        next helig =>
          cases w
          · rw [heq]
            rfl
          · rw [heq]
            rfl
        next =>
          rw [heq]

/-- C5: `send_result_response` (with the DDS result write succeeding)
suspends only until a matching result request is available — already
buffered or somewhere in the incoming stream; it then succeeds exactly
when the goal is registered with status in {Accepted, Executing,
Canceling} (the end status being terminal by construction of
`GoalEndStatus`); on success it stores the terminal status in the
registry and writes the status array strictly before the
`GetResultResponse`, which goes out on the matching request id — the one
buffered for this goal, or the one found while draining the incoming
stream — so the request is answered whether it arrived before or after
the call; and every result request consumed for a different goal id is
buffered into `result_requests`. -/
theorem claim_send_result_response_spec {G R F : Type}
    (s : AsyncActionServer G R) (handle : ExecutingGoalHandle G)
    (result_status : GoalEndStatus) (result : R)
    (incoming : List (RmwRequestId × GetResultRequest))
    (hav : (btGet s.result_requests handle.inner.goal_id).isSome = true ∨
      ∃ p ∈ incoming, p.2.goal_id = handle.inner.goal_id) :
    (send_result_response (F := F) s handle result_status result
        incoming true).1.isSome = true ∧
    ((send_result_response (F := F) s handle result_status result
        incoming true).1 = some (Except.ok ()) ↔
      ∃ ag, btGet s.goals handle.inner.goal_id = some ag ∧
        (ag.status = GoalStatusEnum.Accepted ∨ ag.status = GoalStatusEnum.Executing ∨
          ag.status = GoalStatusEnum.Canceling)) ∧
    (∀ ag, btGet s.goals handle.inner.goal_id = some ag →
      (ag.status = GoalStatusEnum.Accepted ∨ ag.status = GoalStatusEnum.Executing ∨
        ag.status = GoalStatusEnum.Canceling) →
      btGet (send_result_response (F := F) s handle result_status result
          incoming true).2.1.goals handle.inner.goal_id =
        some { ag with status := result_status.toStatusEnum } ∧
      ∃ req_id,
        (btGet s.result_requests handle.inner.goal_id = some req_id ∨
          (btGet s.result_requests handle.inner.goal_id = none ∧
            (drainResultRequests handle.inner.goal_id incoming
              s.result_requests).1 = some req_id)) ∧
        (send_result_response (F := F) s handle result_status result
            incoming true).2.2 =
          [ Event.statusArray (publish_statuses
              (send_result_response (F := F) s handle result_status result
                incoming true).2.1.goals)
          , Event.resultResponse req_id
              { status := result_status.toStatusEnum, result := result } ]) ∧
    (∀ l1 p l2, incoming = l1 ++ p :: l2 →
      btGet s.result_requests handle.inner.goal_id = none →
      (∀ q ∈ l1, q.2.goal_id ≠ handle.inner.goal_id) →
      p.2.goal_id ≠ handle.inner.goal_id →
      p.2.goal_id ∈ btKeys (send_result_response (F := F) s handle result_status
        result incoming true).2.1.result_requests) := by
  cases hb : btGet s.result_requests handle.inner.goal_id with
  | some rid =>
    refine ⟨?_, ?_, ?_, ?_⟩
    · rw [send_result_response]
      simp only [hb]
      split
      next => rfl
      next ag heq =>
        split
        next => rfl
        next => rfl
    · rw [send_result_response]
      simp only [hb]
      split
      next heq =>
        constructor
        · intro h
          exact absurd h (by simp)
        · rintro ⟨ag, hag, _⟩
          rw [heq] at hag
          exact Option.noConfusion hag
      next ag heq =>
        split
        next helig =>
          constructor
          · intro _
            exact ⟨ag, heq, helig⟩
          · intro _
            rfl
        next helig =>
          constructor
          · intro h
            exact absurd h (by simp)
          · rintro ⟨ag2, hag2, helig2⟩
            rw [heq] at hag2
            obtain rfl := Option.some_inj.mp hag2
            exact absurd helig2 helig
    · intro ag hget helig
      rw [send_result_response]
      simp only [hb, hget]
      rw [if_pos helig]
      refine ⟨?_, rid, Or.inl rfl, rfl⟩
      show btGet (btModify handle.inner.goal_id
          (fun g0 => { g0 with status := result_status.toStatusEnum })
          s.goals) handle.inner.goal_id =
        some { ag with status := result_status.toStatusEnum }
      rw [btGet_btModify_self, hget, Option.map_some']
    · intro l1 p l2 hinc hb2 hl1 hp
      exact Option.noConfusion hb2
  | none =>
    have hfo : ((drainResultRequests handle.inner.goal_id incoming
        s.result_requests).1).isSome = true := by
      rcases hav with h | h
      · rw [hb] at h
        exact Bool.noConfusion h
      · exact drain_isSome_of_match _ _ _ h
    refine ⟨?_, ?_, ?_, ?_⟩
    · rw [send_result_response]
      simp only [hb]
      split
      next buf heq =>
        exfalso
        rw [heq] at hfo
        exact Bool.noConfusion hfo
      next rid buf heq =>
        split
        next => rfl
        next ag heq2 =>
          split
          next => rfl
          next => rfl
    · rw [send_result_response]
      simp only [hb]
      split
      next buf heq =>
        exfalso
        rw [heq] at hfo
        exact Bool.noConfusion hfo
      next rid buf heq =>
        split
        next heq2 =>
          constructor
          · intro h
            exact absurd h (by simp)
          · rintro ⟨ag, hag, _⟩
            rw [heq2] at hag
            exact Option.noConfusion hag
        next ag heq2 =>
          split
          next helig =>
            constructor
            · intro _
              exact ⟨ag, heq2, helig⟩
            · intro _
              rfl
          next helig =>
            constructor
            · intro h
              exact absurd h (by simp)
            · rintro ⟨ag2, hag2, helig2⟩
              rw [heq2] at hag2
              obtain rfl := Option.some_inj.mp hag2
              exact absurd helig2 helig
    · intro ag hget helig
      rw [send_result_response]
      simp only [hb, hget]
      split
      next buf heq =>
        exfalso
        rw [heq] at hfo
        exact Bool.noConfusion hfo
      next rid buf heq =>
        rw [if_pos helig]
        refine ⟨?_, rid, Or.inr ⟨by trivial, ?_⟩, rfl⟩
        · show btGet (btModify handle.inner.goal_id
              (fun g0 => { g0 with status := result_status.toStatusEnum })
              s.goals) handle.inner.goal_id =
            some { ag with status := result_status.toStatusEnum }
          rw [btGet_btModify_self, hget, Option.map_some']
        · first
          | rfl
          | rw [heq]
    · intro l1 p l2 hinc hb2 hl1 hp
      rw [srr_result_requests]
      simp only [hb]
      rw [hinc]
      exact drain_buffers _ l1 p l2 _ hl1 hp

/-- C5 (witness): the result theorem applied to goal 5 Executing with the
incoming stream carrying first a result request for another goal (id 9)
and then the matching one (request id 3): the call succeeds, replies on
the drained matching request id, orders the status array before the
result reply, and buffers the request for goal 9. -/
theorem claim_send_result_response_spec_witness :
    ((btGet exServerExec.result_requests 5).isSome = true ∨
      ∃ p ∈ [((4 : RmwRequestId), ({ goal_id := 9 } : GetResultRequest)),
          (3, { goal_id := 5 })], p.2.goal_id = 5) ∧
    (drainResultRequests 5 [(4, { goal_id := 9 }), (3, { goal_id := 5 })]
        exServerExec.result_requests).1 = some 3 ∧
    (send_result_response (F := Unit) exServerExec
        { inner := { goal_id := 5 } } GoalEndStatus.Succeeded ()
        [(4, { goal_id := 9 }), (3, { goal_id := 5 })] true).1.isSome = true ∧
    (btGet (send_result_response (F := Unit) exServerExec
        { inner := { goal_id := 5 } } GoalEndStatus.Succeeded ()
        [(4, { goal_id := 9 }), (3, { goal_id := 5 })] true).2.1.goals 5 =
      some { status := GoalStatusEnum.Succeeded, accepted_time := some exTime3, goal := () } ∧
    ∃ req_id,
      (btGet exServerExec.result_requests 5 = some req_id ∨
        (btGet exServerExec.result_requests 5 = none ∧
          (drainResultRequests 5 [(4, { goal_id := 9 }), (3, { goal_id := 5 })]
            exServerExec.result_requests).1 = some req_id)) ∧
      (send_result_response (F := Unit) exServerExec
          { inner := { goal_id := 5 } } GoalEndStatus.Succeeded ()
          [(4, { goal_id := 9 }), (3, { goal_id := 5 })] true).2.2 =
        [ Event.statusArray (publish_statuses (send_result_response (F := Unit)
            exServerExec { inner := { goal_id := 5 } } GoalEndStatus.Succeeded ()
            [(4, { goal_id := 9 }), (3, { goal_id := 5 })] true).2.1.goals)
        , Event.resultResponse req_id
            { status := GoalStatusEnum.Succeeded, result := () } ]) ∧
    (9 : GoalId) ∈ btKeys (send_result_response (F := Unit) exServerExec
        { inner := { goal_id := 5 } } GoalEndStatus.Succeeded ()
        [(4, { goal_id := 9 }), (3, { goal_id := 5 })] true).2.1.result_requests :=
  ⟨Or.inr (by decide),
    by decide,
    (claim_send_result_response_spec exServerExec
      { inner := { goal_id := 5 } } GoalEndStatus.Succeeded ()
      [(4, { goal_id := 9 }), (3, { goal_id := 5 })] (Or.inr (by decide))).1,
    ((claim_send_result_response_spec exServerExec
      { inner := { goal_id := 5 } } GoalEndStatus.Succeeded ()
      [(4, { goal_id := 9 }), (3, { goal_id := 5 })] (Or.inr (by decide))).2.2.1
      { status := GoalStatusEnum.Executing, accepted_time := some exTime3, goal := () }
      (by decide) (Or.inr (Or.inl (by decide)))),
    (claim_send_result_response_spec exServerExec
      { inner := { goal_id := 5 } } GoalEndStatus.Succeeded ()
      [(4, { goal_id := 9 }), (3, { goal_id := 5 })] (Or.inr (by decide))).2.2.2
      [] (4, { goal_id := 9 }) [(3, { goal_id := 5 })] rfl (by decide)
      (by intro q hq; exact absurd hq (List.not_mem_nil q)) (by decide)⟩

end Ros2Client
